import Mathlib

/-!
Verification of the plugin-dashboard core: a shallow embedding of the data
model, the aggregation engine (`pluginService.ts`), the settings service
(`settingsService.ts`), the durable-store access layer (`fileService.ts`) and
the interaction state machine (`app.tsx`), together with theorems settling the
specification claims about them.

Conventions of the embedding:
- the on-disk JSON documents are explicit values; a document slot is a
  `FileContent`, distinguishing a missing file, a file that exists but does
  not parse, and a parsed value;
- JavaScript objects appear as insertion-ordered association lists;
- code that throws returns `Except String`;
- numbers are `Int`; JavaScript truthiness of strings (empty string is falsy)
  is modelled explicitly where the source relies on it.
-/

namespace PluginDashboard

/-- Author information (`author` field in `types/index.ts`). -/
structure Author where
  name : String
  email : Option String
deriving DecidableEq, Repr

/-- One installation entry from `installed_plugins.json`
(`InstalledPluginEntry` in `types/index.ts`); `scope` is the
`user | project` union as a string. -/
structure InstalledPluginEntry where
  scope : String
  installPath : String
  version : String
  installedAt : String
  lastUpdated : String
  gitCommitSha : String
  isLocal : Bool
deriving DecidableEq, Repr

/-- Structure of `installed_plugins.json`: a version number and a map from plugin id to an
ordered sequence of installation entries (`InstalledPluginsFile`). -/
structure InstalledPluginsFile where
  version : Int
  plugins : List (String × List InstalledPluginEntry)
deriving DecidableEq, Repr

/-- One entry of `install-counts-cache.json` (`InstallCount`). -/
structure InstallCount where
  plugin : String
  unique_installs : Int
deriving DecidableEq, Repr

/-- Structure of `install-counts-cache.json` (`InstallCountsFile`). -/
structure InstallCountsFile where
  version : Int
  fetchedAt : String
  counts : List InstallCount
deriving DecidableEq, Repr

/-- A plugin entry of a marketplace catalog (`MarketplacePluginEntry`).
`description` is typed as required in `types/index.ts`, but the aggregation
code defends against its absence with an empty-string fallback, so the
embedding keeps it optional, as the raw JSON may omit it. -/
structure MarketplacePluginEntry where
  name : String
  description : Option String
  version : Option String
  author : Option Author
  category : Option String
  homepage : Option String
  tags : Option (List String)
  keywords : Option (List String)
deriving DecidableEq, Repr

/-- A per-marketplace catalog document (`MarketplaceFile`); only the fields
the core reads (`name`, `plugins`) plus `description` are modelled. -/
structure MarketplaceFile where
  name : String
  description : Option String
  plugins : List MarketplacePluginEntry
deriving DecidableEq, Repr

/-- Structure of `settings.json` (`Settings`): the enabled-plugins map plus the
`[key: string]: unknown` index signature, modelled as an association list of
opaque serialized values that the core must preserve untouched. -/
structure Settings where
  enabledPlugins : Option (List (String × Bool))
  extra : List (String × String)
deriving DecidableEq, Repr

/-- The discriminated source of a marketplace (`source` in `Marketplace`). -/
structure MarketplaceSource where
  source : String
  url : Option String
  repo : Option String
deriving DecidableEq, Repr

/-- An aggregated marketplace record (`Marketplace` in `types/index.ts`). -/
structure Marketplace where
  id : String
  name : String
  source : MarketplaceSource
  installLocation : String
  lastUpdated : String
  pluginCount : Option Int
deriving DecidableEq, Repr

/-- A plugin error entry (`PluginError` in `types/index.ts`). -/
structure PluginError where
  pluginId : String
  type : String
  message : String
  timestamp : String
  details : Option String
deriving DecidableEq, Repr

/-- The aggregated plugin record (`Plugin` in `types/index.ts`). -/
structure Plugin where
  id : String
  name : String
  marketplace : String
  description : String
  version : String
  installCount : Int
  isInstalled : Bool
  isEnabled : Bool
  installedAt : Option String
  lastUpdated : Option String
  category : Option String
  tags : Option (List String)
  author : Option Author
  homepage : Option String
  isLocal : Option Bool
  gitCommitSha : Option String
deriving DecidableEq, Repr

/-- The state of one JSON document on disk: missing, present but not
parsable, or parsed. -/
inductive FileContent (α : Type) where
  | absent
  | malformed
  | valid (value : α)
deriving DecidableEq, Repr

/-- Model of `readJsonFile` from `fileService.ts`: `null` (here `none`) when the file
does not exist, the parsed value otherwise; a file that exists but cannot be
parsed throws the Invalid-JSON error (the underlying `SyntaxError` message is
not modelled). -/
def readJsonFile (content : FileContent α) (filePath : String) :
    Except String (Option α) :=
  match content with
  | .absent => .ok none
  | .malformed => .error ("Invalid JSON in " ++ filePath)
  | .valid v => .ok (some v)

/-- Canonical document locations from `utils/paths.ts`, written relative to
the configuration home directory. -/
def PATHS.settings : String := ".claude/settings.json"

/-- Location of the installed-plugin registry (`utils/paths.ts`). -/
def PATHS.installedPlugins : String := ".claude/plugins/installed_plugins.json"

/-- Location of the install-count cache (`utils/paths.ts`). -/
def PATHS.installCountsCache : String := ".claude/plugins/install-counts-cache.json"

/-- Model of `getMarketplaceJsonPath` from `utils/paths.ts`. -/
def getMarketplaceJsonPath (marketplaceId : String) : String :=
  ".claude/plugins/marketplaces/" ++ marketplaceId ++ "/.claude-plugin/marketplace.json"

/-- JavaScript object property read `obj[key]` on an insertion-ordered
association list. -/
def objGet (m : List (String × β)) (key : String) : Option β :=
  (m.find? (fun kv => kv.1 = key)).map (fun kv => kv.2)

/-- JavaScript object property assignment `obj[key] = v`: updates in place
when the key exists, appends at the end otherwise. -/
def objSet (m : List (String × β)) (key : String) (v : β) : List (String × β) :=
  if m.any (fun kv => kv.1 = key) then
    m.map (fun kv => if kv.1 = key then (key, v) else kv)
  else m ++ [(key, v)]

/-- Model of `readSettings` from `settingsService.ts`: throws when `settings.json` is
missing, propagates the malformed-document error otherwise. -/
def readSettings (file : FileContent Settings) : Except String Settings :=
  match readJsonFile file PATHS.settings with
  | .error e => .error e
  | .ok none =>
      .error ("settings.json not found at " ++ PATHS.settings ++
        ". Is Claude Code installed?")
  | .ok (some settings) => .ok settings

/-- Model of `writeSettings` from `settingsService.ts`: the document becomes the new
file content (the atomic temp-file write of `writeJsonFile` is modelled as
always succeeding). -/
def writeSettings (settings : Settings) : FileContent Settings :=
  .valid settings

/-- Model of `getEnabledPlugins` from `settingsService.ts`
(`settings.enabledPlugins ?? {}`). -/
def getEnabledPlugins (file : FileContent Settings) :
    Except String (List (String × Bool)) :=
  match readSettings file with
  | .error e => .error e
  | .ok settings => .ok (settings.enabledPlugins.getD [])

/-- Model of `isPluginEnabled` from `settingsService.ts`, reading the map with default false. -/
def isPluginEnabled (file : FileContent Settings) (pluginId : String) :
    Except String Bool :=
  match getEnabledPlugins file with
  | .error e => .error e
  | .ok enabled => .ok ((objGet enabled pluginId).getD false)

/-- Model of `setPluginEnabled` from `settingsService.ts`: reads the settings,
initialises the enabled-plugins map if missing, assigns the key and writes the
document back; returns the new file content. -/
def setPluginEnabled (file : FileContent Settings) (pluginId : String)
    (enabled : Bool) : Except String (FileContent Settings) :=
  match readSettings file with
  | .error e => .error e
  | .ok settings =>
      .ok (writeSettings { settings with
        enabledPlugins := some (objSet (settings.enabledPlugins.getD []) pluginId enabled) })

/-- Model of `togglePlugin` from `settingsService.ts`: reads the current state, writes
its negation and returns the new state together with the new file content. -/
def togglePlugin (file : FileContent Settings) (pluginId : String) :
    Except String (Bool × FileContent Settings) :=
  match isPluginEnabled file pluginId with
  | .error e => .error e
  | .ok currentState =>
      match setPluginEnabled file pluginId (!currentState) with
      | .error e => .error e
      | .ok file2 => .ok (!currentState, file2)

/-- JavaScript `a || b` where `a` is a possibly-absent string: `undefined` and
the empty string are falsy. -/
def jsStrOr (a : Option String) (b : String) : String :=
  match a with
  | none => b
  | some s => if s = "" then b else s

/-- Lookup in the `installedMap` built at the top of `loadAllPlugins`
(`pluginService.ts` lines 38-45): for each registry key the first installation
entry is kept, and ids whose entry list is empty are skipped
(`if (entries[0])`). A missing registry file yields an empty map. -/
def installedMapGet (installed : Option InstalledPluginsFile) (pluginId : String) :
    Option InstalledPluginEntry :=
  match installed with
  | none => none
  | some file => (file.plugins.find? (fun kv => kv.1 = pluginId)).bind
      (fun kv => kv.2.head?)

/-- Lookup in the `countsMap` of `loadAllPlugins` (lines 47-52): successive
`Map.set` calls mean the last cache entry for a plugin id wins. -/
def countsMapGet (counts : Option InstallCountsFile) (pluginId : String) :
    Option Int :=
  match counts with
  | none => none
  | some file =>
      ((file.counts.filter (fun c => c.plugin = pluginId)).getLast?).map
        (fun c => c.unique_installs)

/-- The record pushed for one catalog entry inside the marketplace loop of
`loadAllPlugins` (`pluginService.ts` lines 66-86). `installCount` uses
`countsMap.get(id) || 0`, which coincides with defaulting the absent case
to 0; `tags` is `plugin.tags || plugin.keywords`, where any present array
(even empty) is truthy. -/
def mkPluginRecord (installed : Option InstalledPluginsFile)
    (counts : Option InstallCountsFile) (enabledPlugins : List (String × Bool))
    (marketplace : String) (plugin : MarketplacePluginEntry) : Plugin :=
  let pluginId := plugin.name ++ "@" ++ marketplace
  let installedEntry := installedMapGet installed pluginId
  { id := pluginId
    name := plugin.name
    marketplace := marketplace
    description := plugin.description.getD ""
    version := jsStrOr (installedEntry.map (fun e => e.version))
      (jsStrOr plugin.version "unknown")
    installCount := (countsMapGet counts pluginId).getD 0
    isInstalled := installedEntry.isSome
    isEnabled := (objGet enabledPlugins pluginId).getD false
    installedAt := installedEntry.map (fun e => e.installedAt)
    lastUpdated := installedEntry.map (fun e => e.lastUpdated)
    category := plugin.category
    tags := plugin.tags.orElse (fun _ => plugin.keywords)
    author := plugin.author
    homepage := plugin.homepage
    isLocal := installedEntry.map (fun e => e.isLocal)
    gitCommitSha := installedEntry.map (fun e => e.gitCommitSha) }

/-- The per-marketplace loop of `loadAllPlugins` (lines 60-89): each catalog is
read with `readJsonFile`, so a malformed catalog propagates its error, while a
missing catalog (`manifest` null) contributes no records and the loop
continues. -/
def scanMarketplaces (installed : Option InstalledPluginsFile)
    (counts : Option InstallCountsFile) (enabledPlugins : List (String × Bool)) :
    List (String × FileContent MarketplaceFile) → Except String (List Plugin)
  | [] => .ok []
  | (marketplace, content) :: rest =>
    match readJsonFile content (getMarketplaceJsonPath marketplace) with
    | .error e => .error e
    | .ok manifest =>
      match scanMarketplaces installed counts enabledPlugins rest with
      | .error e => .error e
      | .ok restRecords =>
        .ok ((match manifest with
          | some file =>
              file.plugins.map (mkPluginRecord installed counts enabledPlugins marketplace)
          | none => []) ++ restRecords)

/-- The comparator-based stable array sort of JavaScript
(`Array.prototype.sort`, stable since ES2019), modelled by insertion sort on
the relation `c a b ≤ 0`. A stable sort with a consistent comparator
determines the output uniquely, so the choice of stable algorithm is
immaterial. -/
def jsSortBy (c : α → α → Int) (l : List α) : List α :=
  l.insertionSort (fun a b => c a b ≤ 0)

/-- The inputs a `loadAllPlugins` pass reads from disk. The marketplace list
carries the subdirectory names of the marketplaces directory (pairwise
distinct on a real file system, as directory listings are) paired with the
state of each catalog document. -/
structure Env where
  installedPlugins : FileContent InstalledPluginsFile
  installCountsCache : FileContent InstallCountsFile
  settings : FileContent Settings
  marketplacesDirExists : Bool
  marketplaces : List (String × FileContent MarketplaceFile)
deriving DecidableEq, Repr

/-- Model of `loadAllPlugins` from `pluginService.ts` (lines 31-96): reads the
installed-plugin registry, the install-count cache and the enabled-plugins map
of the settings (each failure propagating), scans every marketplace
subdirectory, and sorts the accumulated records by install count
descending (`(a, b) => b.installCount - a.installCount`). -/
def loadAllPlugins (env : Env) : Except String (List Plugin) :=
  match readJsonFile env.installedPlugins PATHS.installedPlugins with
  | .error e => .error e
  | .ok installed =>
    match readJsonFile env.installCountsCache PATHS.installCountsCache with
    | .error e => .error e
    | .ok counts =>
      match getEnabledPlugins env.settings with
      | .error e => .error e
      | .ok enabledPlugins =>
        match (if env.marketplacesDirExists then
            scanMarketplaces installed counts enabledPlugins env.marketplaces
          else .ok []) with
        | .error e => .error e
        | .ok plugins =>
            .ok (jsSortBy (fun a b => b.installCount - a.installCount) plugins)

/-- JavaScript `String.prototype.includes` on already-lower-cased strings. -/
def strIncludes (haystack needle : String) : Bool :=
  decide (needle.data <:+: haystack.data)

/-- The predicate of `searchPlugins` (`pluginService.ts` lines 176-183):
case-insensitive substring match on name, description, marketplace, category
or any tag; optional chaining makes an absent category or tag list a
non-match. -/
def matchesQuery (lowerQuery : String) (p : Plugin) : Bool :=
  strIncludes p.name.toLower lowerQuery ||
  strIncludes p.description.toLower lowerQuery ||
  strIncludes p.marketplace.toLower lowerQuery ||
  (p.category.map (fun c => strIncludes c.toLower lowerQuery)).getD false ||
  (p.tags.map (fun ts => ts.any (fun t => strIncludes t.toLower lowerQuery))).getD false

/-- Model of `searchPlugins` from `pluginService.ts` (the plugins-given overload). -/
def searchPlugins (query : String) (plugins : List Plugin) : List Plugin :=
  plugins.filter (matchesQuery query.toLower)

/-- The three sort fields of `sortPlugins`. -/
inductive SortBy where
  | installs
  | name
  | date
deriving DecidableEq, Repr

/-- The two sort directions of `sortPlugins`. -/
inductive SortOrder where
  | asc
  | desc
deriving DecidableEq, Repr

/-- Model of `String.prototype.localeCompare` by code-point comparison;
locale-aware collation is outside the model and the claims proved below do
not depend on which total comparison it is. -/
def localeCompare (a b : String) : Int :=
  match compare a b with
  | .lt => -1
  | .eq => 0
  | .gt => 1

/-- Model of the JavaScript date-parse getTime call on the stored timestamp strings:
fixed numeric encoding of the string; the claims proved below depend only on
this being some fixed function of the string. -/
def dateMillis (s : String) : Int :=
  s.data.foldl (fun acc c => acc * 1114112 + (c.toNat + 1)) 0

/-- The `date` branch of the `sortPlugins` comparator:
`a.installedAt ? new Date(a.installedAt).getTime() : 0`, where an absent or
empty `installedAt` is falsy and yields 0. -/
def installedAtMillis (p : Plugin) : Int :=
  match p.installedAt with
  | none => 0
  | some s => if s = "" then 0 else dateMillis s

/-- The comparison computed inside the `sortPlugins` comparator before the
direction is applied (`pluginService.ts` lines 200-215). -/
def comparePlugins (sortBy : SortBy) (a b : Plugin) : Int :=
  match sortBy with
  | .installs => a.installCount - b.installCount
  | .name => localeCompare a.name b.name
  | .date => installedAtMillis a - installedAtMillis b

/-- Model of `sortPlugins` from `pluginService.ts` (lines 193-221): copies the array
and sorts it with the keyed comparator, negated for descending order. -/
def sortPlugins (plugins : List Plugin) (sortBy : SortBy) (order : SortOrder) :
    List Plugin :=
  jsSortBy (fun a b =>
    if order = SortOrder.asc then comparePlugins sortBy a b
    else -(comparePlugins sortBy a b)) plugins

/-- The four tabs of the `activeTab` field. -/
inductive Tab where
  | discover
  | installed
  | marketplaces
  | errors
deriving DecidableEq, Repr

/-- Direction argument of `getNextTab` (the `next | prev` union). -/
inductive TabDir where
  | next
  | prev
deriving DecidableEq, Repr

/-- The tab list `TABS` of `components/TabBar.tsx` (a document bundled in
`src/source/components/StatusIcon.tsx`): the four tab ids with their display
labels, in display order. -/
def TABS : List (Tab × String) :=
  [(.discover, "Discover"), (.installed, "Installed"),
    (.marketplaces, "Marketplaces"), (.errors, "Errors")]

/-- Model of `getNextTab` from `components/TabBar.tsx` (bundled in
`src/source/components/StatusIcon.tsx`, lines 92-102): finds the index of the
current tab in `TABS` and steps it forward, or backward with a wrap-around
offset, modulo the tab count. The non-null assertion on the final lookup is
modelled by a default the modular arithmetic never reaches; indices are `Int`
so that the backward step matches the JavaScript arithmetic at index 0. -/
def getNextTab (currentTab : Tab) (direction : TabDir) : Tab :=
  let currentIndex : Int := TABS.findIdx (fun t => t.1 == currentTab)
  let tabCount : Int := TABS.length
  let newIndex : Int :=
    match direction with
    | .next => (currentIndex + 1) % tabCount
    | .prev => (currentIndex - 1 + tabCount) % tabCount
  ((TABS.get? newIndex.toNat).map (fun t => t.1)).getD Tab.discover

/-- The operation tag of the reducer state (`idle`, `installing`, `uninstalling`). -/
inductive Operation where
  | idle
  | installing
  | uninstalling
deriving DecidableEq, Repr

/-- The operation payload of `START_OPERATION` (`installing | uninstalling`). -/
inductive OpKind where
  | installing
  | uninstalling
deriving DecidableEq, Repr

/-- The `Operation` an `OpKind` payload sets. -/
def OpKind.toOperation : OpKind → Operation
  | .installing => .installing
  | .uninstalling => .uninstalling

/-- Direction payload of `MOVE_SELECTION`. -/
inductive MoveDir where
  | up
  | down
deriving DecidableEq, Repr

/-- The reducer state (`AppState` in `types/index.ts`). `selectedIndex` is an
`Int` because nothing in the reducer constrains the `SET_SELECTED_INDEX`
payload. -/
structure AppState where
  activeTab : Tab
  plugins : List Plugin
  marketplaces : List Marketplace
  errors : List PluginError
  selectedIndex : Int
  searchQuery : String
  sortBy : SortBy
  sortOrder : SortOrder
  loading : Bool
  error : Option String
  message : Option String
  operation : Operation
  operationPluginId : Option String
  confirmUninstall : Bool
deriving DecidableEq, Repr

/-- The reducer actions (`Action` in `types/index.ts`). -/
inductive Action where
  | SET_TAB (payload : Tab)
  | SET_PLUGINS (payload : List Plugin)
  | SET_MARKETPLACES (payload : List Marketplace)
  | SET_ERRORS (payload : List PluginError)
  | SET_SELECTED_INDEX (payload : Int)
  | MOVE_SELECTION (payload : MoveDir)
  | SET_SEARCH_QUERY (payload : String)
  | SET_SORT (sortBy : SortBy) (order : SortOrder)
  | TOGGLE_PLUGIN_ENABLED (payload : String)
  | UPDATE_PLUGIN (payload : Plugin)
  | SET_LOADING (payload : Bool)
  | SET_ERROR (payload : Option String)
  | SET_MESSAGE (payload : Option String)
  | NEXT_TAB
  | PREV_TAB
  | START_OPERATION (operation : OpKind) (pluginId : String)
  | END_OPERATION
  | SHOW_CONFIRM_UNINSTALL (payload : String)
  | HIDE_CONFIRM_UNINSTALL
deriving DecidableEq, Repr

/-- Model of `getFilteredPlugins` from `app.tsx` (lines 243-255): apply the search
filter when the query is truthy (non-empty), then the sort. -/
def getFilteredPlugins (state : AppState) : List Plugin :=
  let plugins :=
    if state.searchQuery ≠ "" then searchPlugins state.searchQuery state.plugins
    else state.plugins
  sortPlugins plugins state.sortBy state.sortOrder

/-- An element of the `unknown[]` list `getItemsForTab` returns. -/
inductive Item where
  | plugin (p : Plugin)
  | marketplace (m : Marketplace)
  | error (e : PluginError)
deriving DecidableEq, Repr

/-- Model of `getItemsForTab` from `app.tsx` (lines 225-238). -/
def getItemsForTab (state : AppState) : List Item :=
  match state.activeTab with
  | .discover => (getFilteredPlugins state).map Item.plugin
  | .installed => (state.plugins.filter (fun p => p.isInstalled)).map Item.plugin
  | .marketplaces => state.marketplaces.map Item.marketplace
  | .errors => state.errors.map Item.error

/-- The map applied to each plugin by the `TOGGLE_PLUGIN_ENABLED` case of the
reducer (`app.tsx` lines 141-146). -/
def toggleEnabled (pluginId : String) (p : Plugin) : Plugin :=
  if p.id = pluginId then { p with isEnabled := !p.isEnabled } else p

/-- Model of `appReducer` from `app.tsx` (lines 51-220). -/
def appReducer (state : AppState) (action : Action) : AppState :=
  match action with
  | .SET_TAB payload =>
      { state with
        activeTab := payload
        selectedIndex := 0
        searchQuery := ""
        message := none }
  | .NEXT_TAB =>
      { state with
        activeTab := getNextTab state.activeTab .next
        selectedIndex := 0
        searchQuery := ""
        message := none }
  | .PREV_TAB =>
      { state with
        activeTab := getNextTab state.activeTab .prev
        selectedIndex := 0
        searchQuery := ""
        message := none }
  | .SET_PLUGINS payload => { state with plugins := payload, loading := false }
  | .SET_MARKETPLACES payload => { state with marketplaces := payload }
  | .SET_ERRORS payload => { state with errors := payload }
  | .SET_SELECTED_INDEX payload =>
      { state with selectedIndex := payload, message := none }
  | .MOVE_SELECTION payload =>
      let items := getItemsForTab state
      let maxIndex : Int := max 0 ((items.length : Int) - 1)
      if items.length = 0 then state
      else
        let newIndex :=
          match payload with
          | .up => max 0 (state.selectedIndex - 1)
          | .down => min maxIndex (state.selectedIndex + 1)
        { state with selectedIndex := newIndex, message := none }
  | .SET_SEARCH_QUERY payload =>
      { state with searchQuery := payload, selectedIndex := 0 }
  | .SET_SORT sortBy order =>
      { state with sortBy := sortBy, sortOrder := order, selectedIndex := 0 }
  | .TOGGLE_PLUGIN_ENABLED pluginId =>
      { state with plugins := state.plugins.map (toggleEnabled pluginId) }
  | .UPDATE_PLUGIN payload =>
      { state with
        plugins := state.plugins.map (fun p => if p.id = payload.id then payload else p) }
  | .SET_LOADING payload => { state with loading := payload }
  | .SET_ERROR payload => { state with error := payload, loading := false }
  | .SET_MESSAGE payload => { state with message := payload }
  | .START_OPERATION operation pluginId =>
      { state with
        operation := operation.toOperation
        operationPluginId := some pluginId
        message := some (match operation with
          | .installing => "Installing " ++ pluginId ++ "..."
          | .uninstalling => "Uninstalling " ++ pluginId ++ "...") }
  | .END_OPERATION =>
      { state with operation := .idle, operationPluginId := none }
  | .SHOW_CONFIRM_UNINSTALL payload =>
      { state with confirmUninstall := true, operationPluginId := some payload }
  | .HIDE_CONFIRM_UNINSTALL =>
      { state with confirmUninstall := false, operationPluginId := none }

/-- Model of `initialState` from `app.tsx` (lines 31-46). -/
def initialState : AppState :=
  { activeTab := .discover
    plugins := []
    marketplaces := []
    errors := []
    selectedIndex := 0
    searchQuery := ""
    sortBy := .installs
    sortOrder := .desc
    loading := true
    error := none
    message := none
    operation := .idle
    operationPluginId := none
    confirmUninstall := false }

/-- The key flags Ink passes to `useInput`; `returnKey` stands for the
`return` flag, which is a reserved word here. -/
structure Key where
  upArrow : Bool := false
  downArrow : Bool := false
  leftArrow : Bool := false
  rightArrow : Bool := false
  tab : Bool := false
  escape : Bool := false
  returnKey : Bool := false
  backspace : Bool := false
  delete : Bool := false
  ctrl : Bool := false
  meta : Bool := false
deriving DecidableEq, Repr

/-- One key event: the printable input string plus the key flags. -/
structure InputEvent where
  input : String
  key : Key
deriving DecidableEq, Repr

/-- A plain printable key press: the given input string, no flags set. -/
def plainKeyEvent (s : String) : InputEvent := { input := s, key := {} }

/-- Externally visible actions the input handler can launch: exiting the Ink
session and the asynchronous `claude plugin install import uninstall`
subprocesses of `pluginActionsService.ts`. -/
inductive Effect where
  | exitApp
  | runInstall (pluginId : String)
  | runUninstall (pluginId : String)
deriving DecidableEq, Repr

/-- Result of handling one key event: the reducer state, the `isSearchMode`
flag, the settings document on disk (written by a toggle), and the launched
effects. -/
structure InputResult where
  state : AppState
  isSearchMode : Bool
  settingsFile : FileContent Settings
  effects : List Effect
deriving DecidableEq, Repr

/-- JavaScript array indexing `items[i]`: `undefined` when negative or out of
range. -/
def jsIndex (l : List α) (i : Int) : Option α :=
  if i < 0 then none else l.get? i.toNat

/-- JavaScript truthiness of a nullable string: `null` and `""` are falsy. -/
def jsTruthy : Option String → Bool
  | none => false
  | some s => s != ""

/-- JavaScript `s.slice(0, -1)`: the string without its final character. -/
def strDropLast (s : String) : String := { data := s.data.dropLast }

/-- The cycle of the sort key under the `s` key (`app.tsx` lines 454-458). -/
def nextSortKey : SortBy → SortBy
  | .installs => .name
  | .name => .date
  | .date => .installs

/-- The `useInput` handler of `app.tsx` (lines 334-530), as a function of the
settings document on disk, the reducer state, the `isSearchMode` flag and the
key event. Asynchronous `handleInstall` and `handleUninstall` contribute their
synchronous prefix (the `START_OPERATION` dispatch) plus a launched effect;
the settings toggle is synchronous and its result is threaded through
`togglePlugin`. -/
def handleInput (settingsFile : FileContent Settings) (state : AppState)
    (isSearchMode : Bool) (ev : InputEvent) : InputResult :=
  let keep : InputResult :=
    { state := state
      isSearchMode := isSearchMode
      settingsFile := settingsFile
      effects := [] }
  -- Block all input during operations
  if state.operation != Operation.idle then keep
  -- Handle confirmation dialog
  else if state.confirmUninstall && jsTruthy state.operationPluginId then
    match state.operationPluginId with
    | some pluginId =>
      if ev.input == "y" || ev.input == "Y" then
        let s1 := appReducer state .HIDE_CONFIRM_UNINSTALL
        let s2 := appReducer s1 (.START_OPERATION .uninstalling pluginId)
        { keep with state := s2, effects := [.runUninstall pluginId] }
      else if ev.input == "n" || ev.input == "N" || ev.key.escape then
        let s1 := appReducer state .HIDE_CONFIRM_UNINSTALL
        { keep with state := appReducer s1 (.SET_MESSAGE (some "Uninstall cancelled")) }
      else keep
    | none => keep
  -- Search mode input
  else if isSearchMode then
    if ev.key.escape || ev.key.returnKey then { keep with isSearchMode := false }
    else if ev.key.backspace || ev.key.delete then
      { keep with state :=
          appReducer state (.SET_SEARCH_QUERY (strDropLast state.searchQuery)) }
    else if ev.input != "" && ev.input.length == 1 && !ev.key.ctrl && !ev.key.meta then
      { keep with state :=
          appReducer state (.SET_SEARCH_QUERY (state.searchQuery ++ ev.input)) }
    else keep
  -- Emacs-style navigation
  else if ev.key.ctrl && ev.input == "p" then
    { keep with state := appReducer state (.MOVE_SELECTION .up) }
  else if ev.key.ctrl && ev.input == "n" then
    { keep with state := appReducer state (.MOVE_SELECTION .down) }
  -- Tab navigation
  else if ev.key.leftArrow then { keep with state := appReducer state .PREV_TAB }
  else if ev.key.rightArrow then { keep with state := appReducer state .NEXT_TAB }
  else if ev.key.tab then { keep with state := appReducer state .NEXT_TAB }
  -- List navigation
  else if ev.key.upArrow then
    { keep with state := appReducer state (.MOVE_SELECTION .up) }
  else if ev.key.downArrow then
    { keep with state := appReducer state (.MOVE_SELECTION .down) }
  -- Enter search mode
  else if ev.input == "/" && state.activeTab == Tab.discover then
    { keep with isSearchMode := true }
  -- Toggle plugin (Space or Enter)
  else if (ev.input == " " || ev.key.returnKey) &&
      (state.activeTab == Tab.discover || state.activeTab == Tab.installed) then
    let items :=
      if state.activeTab == Tab.installed then
        state.plugins.filter (fun p => p.isInstalled)
      else getFilteredPlugins state
    match jsIndex items state.selectedIndex with
    | some selectedPlugin =>
      if selectedPlugin.isInstalled then
        match togglePlugin settingsFile selectedPlugin.id with
        | .ok result =>
          let s1 := appReducer state (.TOGGLE_PLUGIN_ENABLED selectedPlugin.id)
          let s2 := appReducer s1 (.SET_MESSAGE (some (if result.1 then
              "✅ " ++ selectedPlugin.name ++ " enabled"
            else "❌ " ++ selectedPlugin.name ++ " disabled")))
          { keep with state := s2, settingsFile := result.2 }
        | .error e =>
          { keep with state := appReducer state (.SET_MESSAGE (some ("Error: " ++ e))) }
      else keep
    | none => keep
  -- Cycle sort
  else if ev.input == "s" && state.activeTab == Tab.discover then
    { keep with state :=
        appReducer state (.SET_SORT (nextSortKey state.sortBy) state.sortOrder) }
  -- Toggle sort order
  else if ev.input == "S" && state.activeTab == Tab.discover then
    { keep with state := appReducer state (.SET_SORT state.sortBy
        (if state.sortOrder = SortOrder.asc then .desc else .asc)) }
  -- Clear search
  else if ev.key.escape && state.searchQuery != "" then
    { keep with state := appReducer state (.SET_SEARCH_QUERY "") }
  -- Install
  else if ev.input == "i" &&
      (state.activeTab == Tab.discover || state.activeTab == Tab.installed) then
    let items :=
      if state.activeTab == Tab.installed then
        state.plugins.filter (fun p => p.isInstalled)
      else getFilteredPlugins state
    match jsIndex items state.selectedIndex with
    | some selectedPlugin =>
      if !selectedPlugin.isInstalled then
        { keep with
          state := appReducer state (.START_OPERATION .installing selectedPlugin.id)
          effects := [.runInstall selectedPlugin.id] }
      else
        { keep with state :=
            appReducer state (.SET_MESSAGE (some "⚠️ Plugin is already installed")) }
    | none => keep
  -- Uninstall
  else if ev.input == "u" &&
      (state.activeTab == Tab.discover || state.activeTab == Tab.installed) then
    let items :=
      if state.activeTab == Tab.installed then
        state.plugins.filter (fun p => p.isInstalled)
      else getFilteredPlugins state
    match jsIndex items state.selectedIndex with
    | some selectedPlugin =>
      if selectedPlugin.isInstalled then
        { keep with state :=
            appReducer state (.SHOW_CONFIRM_UNINSTALL selectedPlugin.id) }
      else
        { keep with state :=
            appReducer state (.SET_MESSAGE (some "⚠️ Plugin is not installed")) }
    | none => keep
  -- Exit
  else if ev.input == "q" || (ev.key.ctrl && ev.input == "c") then
    { keep with effects := [.exitApp] }
  else keep

instance {ε α : Type} [DecidableEq ε] [DecidableEq α] : DecidableEq (Except ε α) :=
  fun a b =>
    match a, b with
    | .ok x, .ok y =>
        if h : x = y then .isTrue (by rw [h])
        else .isFalse (by intro hc; cases hc; exact h rfl)
    | .error x, .error y =>
        if h : x = y then .isTrue (by rw [h])
        else .isFalse (by intro hc; cases hc; exact h rfl)
    | .ok _, .error _ => .isFalse (by intro hc; cases hc)
    | .error _, .ok _ => .isFalse (by intro hc; cases hc)

/-- The value a successful `readJsonFile` of this document returns: the
parsed file when valid, the `null` of a missing file otherwise. -/
def FileContent.toValue : FileContent α → Option α
  | .valid f => some f
  | _ => none

/-- The registry value a successful `loadAllPlugins` pass works with (a
malformed registry aborts the pass before the value is used). -/
def envInstalled (env : Env) : Option InstalledPluginsFile :=
  env.installedPlugins.toValue

/-- The install-count cache value a successful pass works with. -/
def envCounts (env : Env) : Option InstallCountsFile :=
  env.installCountsCache.toValue

/-- The enabled-plugins map a successful pass works with
(`settings.enabledPlugins ?? {}`; a missing or malformed settings document
aborts the pass before the value is used). -/
def envEnabled (env : Env) : List (String × Bool) :=
  match env.settings with
  | .valid s => s.enabledPlugins.getD []
  | _ => []

theorem mkPluginRecord_id (i : Option InstalledPluginsFile)
    (c : Option InstallCountsFile) (e : List (String × Bool)) (m : String)
    (p : MarketplacePluginEntry) :
    (mkPluginRecord i c e m p).id = p.name ++ "@" ++ m := rfl

theorem mkPluginRecord_isInstalled (i : Option InstalledPluginsFile)
    (c : Option InstallCountsFile) (e : List (String × Bool)) (m : String)
    (p : MarketplacePluginEntry) :
    (mkPluginRecord i c e m p).isInstalled =
      (installedMapGet i (p.name ++ "@" ++ m)).isSome := rfl

theorem mkPluginRecord_isEnabled (i : Option InstalledPluginsFile)
    (c : Option InstallCountsFile) (e : List (String × Bool)) (m : String)
    (p : MarketplacePluginEntry) :
    (mkPluginRecord i c e m p).isEnabled =
      (objGet e (p.name ++ "@" ++ m)).getD false := rfl

theorem mkPluginRecord_version (i : Option InstalledPluginsFile)
    (c : Option InstallCountsFile) (e : List (String × Bool)) (m : String)
    (p : MarketplacePluginEntry) :
    (mkPluginRecord i c e m p).version =
      jsStrOr ((installedMapGet i (p.name ++ "@" ++ m)).map (fun x => x.version))
        (jsStrOr p.version "unknown") := rfl

theorem mkPluginRecord_installedAt (i : Option InstalledPluginsFile)
    (c : Option InstallCountsFile) (e : List (String × Bool)) (m : String)
    (p : MarketplacePluginEntry) :
    (mkPluginRecord i c e m p).installedAt =
      (installedMapGet i (p.name ++ "@" ++ m)).map (fun x => x.installedAt) := rfl

theorem mkPluginRecord_lastUpdated (i : Option InstalledPluginsFile)
    (c : Option InstallCountsFile) (e : List (String × Bool)) (m : String)
    (p : MarketplacePluginEntry) :
    (mkPluginRecord i c e m p).lastUpdated =
      (installedMapGet i (p.name ++ "@" ++ m)).map (fun x => x.lastUpdated) := rfl

theorem mkPluginRecord_gitCommitSha (i : Option InstalledPluginsFile)
    (c : Option InstallCountsFile) (e : List (String × Bool)) (m : String)
    (p : MarketplacePluginEntry) :
    (mkPluginRecord i c e m p).gitCommitSha =
      (installedMapGet i (p.name ++ "@" ++ m)).map (fun x => x.gitCommitSha) := rfl

theorem mkPluginRecord_isLocal (i : Option InstalledPluginsFile)
    (c : Option InstallCountsFile) (e : List (String × Bool)) (m : String)
    (p : MarketplacePluginEntry) :
    (mkPluginRecord i c e m p).isLocal =
      (installedMapGet i (p.name ++ "@" ++ m)).map (fun x => x.isLocal) := rfl

theorem mkPluginRecord_name (i : Option InstalledPluginsFile)
    (c : Option InstallCountsFile) (e : List (String × Bool)) (m : String)
    (p : MarketplacePluginEntry) :
    (mkPluginRecord i c e m p).name = p.name := rfl

theorem mkPluginRecord_marketplace (i : Option InstalledPluginsFile)
    (c : Option InstallCountsFile) (e : List (String × Bool)) (m : String)
    (p : MarketplacePluginEntry) :
    (mkPluginRecord i c e m p).marketplace = m := rfl

/-- Every record a successful marketplace scan yields comes from some valid
catalog entry of the scanned list. -/
theorem mem_scanMarketplaces {installed : Option InstalledPluginsFile}
    {counts : Option InstallCountsFile} {enabledPlugins : List (String × Bool)}
    {ms : List (String × FileContent MarketplaceFile)} {recs : List Plugin}
    {rec : Plugin}
    (h : scanMarketplaces installed counts enabledPlugins ms = .ok recs)
    (hm : rec ∈ recs) :
    ∃ m mf entry, (m, FileContent.valid mf) ∈ ms ∧ entry ∈ mf.plugins ∧
      rec = mkPluginRecord installed counts enabledPlugins m entry := by
  induction ms generalizing recs with
  | nil =>
    simp only [scanMarketplaces, Except.ok.injEq] at h
    subst h
    simp at hm
  | cons head rest ih =>
    obtain ⟨m, fc⟩ := head
    cases fc with
    | absent =>
      simp only [scanMarketplaces, readJsonFile] at h
      cases hrest : scanMarketplaces installed counts enabledPlugins rest with
      | error e => rw [hrest] at h; cases h
      | ok restRecords =>
        rw [hrest] at h
        simp only [List.nil_append, Except.ok.injEq] at h
        subst h
        obtain ⟨m2, mf, entry, hmem, hent, hrec⟩ := ih hrest hm
        exact ⟨m2, mf, entry, List.mem_cons_of_mem _ hmem, hent, hrec⟩
    | malformed =>
      simp only [scanMarketplaces, readJsonFile] at h
      cases h
    | valid mf =>
      simp only [scanMarketplaces, readJsonFile] at h
      cases hrest : scanMarketplaces installed counts enabledPlugins rest with
      | error e => rw [hrest] at h; cases h
      | ok restRecords =>
        rw [hrest] at h
        simp only [Except.ok.injEq] at h
        subst h
        rcases List.mem_append.mp hm with hleft | hright
        · obtain ⟨entry, hent, hrec⟩ := List.mem_map.mp hleft
          exact ⟨m, mf, entry, List.mem_cons_self _ _, hent, hrec.symm⟩
        · obtain ⟨m2, mf2, entry, hmem, hent, hrec⟩ := ih hrest hright
          exact ⟨m2, mf2, entry, List.mem_cons_of_mem _ hmem, hent, hrec⟩

/-- A successful `readJsonFile` returns the parsed value of a valid file and
`none` of a missing one. -/
theorem readJsonFile_ok {α : Type} {fc : FileContent α} {p : String} {v : Option α}
    (h : readJsonFile fc p = .ok v) : v = fc.toValue := by
  cases fc with
  | absent => cases h; rfl
  | malformed => cases h
  | valid f => cases h; rfl

/-- A successful `getEnabledPlugins` read comes from a valid settings document
and is its enabled-plugins map, defaulted to empty. -/
theorem getEnabledPlugins_ok {file : FileContent Settings} {e : List (String × Bool)}
    (h : getEnabledPlugins file = .ok e) :
    ∃ s, file = FileContent.valid s ∧ e = s.enabledPlugins.getD [] := by
  cases file with
  | absent => simp [getEnabledPlugins, readSettings, readJsonFile] at h
  | malformed => simp [getEnabledPlugins, readSettings, readJsonFile] at h
  | valid s =>
    refine ⟨s, rfl, ?_⟩
    simp only [getEnabledPlugins, readSettings, readJsonFile, Except.ok.injEq] at h
    exact h.symm

/-- A successful `loadAllPlugins` pass either skipped a missing marketplaces
directory, or ran the scan on the values read from disk; either way the result
is the default descending install-count sort of the scanned records. -/
theorem loadAllPlugins_ok_scan {env : Env} {recs : List Plugin}
    (h : loadAllPlugins env = .ok recs) :
    ∃ plugins,
      (if env.marketplacesDirExists then
          scanMarketplaces (envInstalled env) (envCounts env) (envEnabled env)
            env.marketplaces
        else .ok []) = .ok plugins ∧
      recs = jsSortBy (fun a b => b.installCount - a.installCount) plugins := by
  unfold loadAllPlugins at h
  split at h
  · cases h
  next installed hinst =>
    split at h
    · cases h
    next counts hcounts =>
      split at h
      · cases h
      next enabled henabled =>
        split at h
        · cases h
        next plugins hplugins =>
          obtain ⟨s, hset, he⟩ := getEnabledPlugins_ok henabled
          have hi := readJsonFile_ok hinst
          have hc := readJsonFile_ok hcounts
          refine ⟨plugins, ?_, by cases h; rfl⟩
          have hi2 : envInstalled env = installed := hi.symm
          have hc2 : envCounts env = counts := hc.symm
          have he2 : envEnabled env = enabled := by
            unfold envEnabled; rw [hset, he]
          rw [hi2, hc2, he2]
          exact hplugins

/-- Every record a successful `loadAllPlugins` pass returns is the synthesis
of some catalog entry of some valid marketplace catalog, using the maps built
from the registry, the count cache and the settings that were read. -/
theorem loadAllPlugins_ok_mem {env : Env} {recs : List Plugin} {rec : Plugin}
    (h : loadAllPlugins env = .ok recs) (hm : rec ∈ recs) :
    ∃ m mf entry, (m, FileContent.valid mf) ∈ env.marketplaces ∧
      entry ∈ mf.plugins ∧
      rec = mkPluginRecord (envInstalled env) (envCounts env) (envEnabled env) m entry := by
  obtain ⟨plugins, hscan, hrecs⟩ := loadAllPlugins_ok_scan h
  subst hrecs
  rw [jsSortBy, List.mem_insertionSort] at hm
  cases hd : env.marketplacesDirExists with
  | false =>
    rw [hd, if_neg (by simp)] at hscan
    cases hscan
    simp at hm
  | true =>
    rw [hd, if_pos rfl] at hscan
    exact mem_scanMarketplaces hscan hm

/-! ### Claim C1 -/

/-- A catalog entry named `a`, carrying only a description. -/
def c1entry : MarketplacePluginEntry :=
  { name := "a"
    description := some "demo"
    version := none
    author := none
    category := none
    homepage := none
    tags := none
    keywords := none }

/-- Inputs for C1: the id `a@m` appears in the catalog of marketplace `m`, the
installed-plugin registry is missing (so the id has no entry), and the
enabled-state map maps `a@m` to `true`. -/
def c1env : Env :=
  { installedPlugins := .absent
    installCountsCache := .absent
    settings := .valid { enabledPlugins := some [("a@m", true)], extra := [] }
    marketplacesDirExists := true
    marketplaces := [("m", .valid { name := "M", description := none, plugins := [c1entry] })] }

/-- The record `loadAllPlugins` produces for `a@m` under `c1env`. -/
def c1rec : Plugin :=
  { id := "a@m"
    name := "a"
    marketplace := "m"
    description := "demo"
    version := "unknown"
    installCount := 0
    isInstalled := false
    isEnabled := true
    installedAt := none
    lastUpdated := none
    category := none
    tags := none
    author := none
    homepage := none
    isLocal := none
    gitCommitSha := none }

/-- C1 is false on the code: under `c1env` the plugin id `a@m` appears in a
marketplace catalog and has no entry in the installed-plugin registry, yet the
aggregated record has `isEnabled = true`, because `loadAllPlugins` reads
`enabledPlugins[id] ?? false` with no installation check; the claim demands
`isEnabled = false` regardless of the enabled-state map. -/
theorem c1_counterexample :
    loadAllPlugins c1env = .ok [c1rec] ∧
      c1rec.isInstalled = false ∧ c1rec.isEnabled = true := by
  refine ⟨by decide, rfl, rfl⟩

/-- C1 (amended): for every plugin id that appears in some marketplace catalog
but has no entry in the installed-plugin registry, the record produced by an
aggregation pass has `isInstalled = false`, while `isEnabled` mirrors the
enabled-state map of the settings document: the value stored there for that
id, defaulting to false when the id is absent. -/
theorem c1_theorem {env : Env} {recs : List Plugin} {rec : Plugin}
    (hload : loadAllPlugins env = .ok recs) (hmem : rec ∈ recs)
    (hreg : ∀ file, env.installedPlugins = FileContent.valid file →
      file.plugins.find? (fun kv => kv.1 = rec.id) = none) :
    rec.isInstalled = false ∧
      rec.isEnabled = (objGet (envEnabled env) rec.id).getD false := by
  obtain ⟨m, mf, entry, hmk, hent, hrec⟩ := loadAllPlugins_ok_mem hload hmem
  subst hrec
  simp only [mkPluginRecord_id] at hreg
  have hnone : installedMapGet (envInstalled env) (entry.name ++ "@" ++ m) = none := by
    unfold envInstalled installedMapGet
    cases hi : env.installedPlugins with
    | valid f => simp [FileContent.toValue, hreg f hi]
    | absent => rfl
    | malformed => rfl
  refine ⟨?_, ?_⟩
  · rw [mkPluginRecord_isInstalled, hnone]
    rfl
  · rw [mkPluginRecord_isEnabled, mkPluginRecord_id]

/-- Witness for the amended C1 at the concrete inputs of `c1env`. -/
theorem c1_witness :
    c1rec.isInstalled = false ∧
      c1rec.isEnabled = (objGet (envEnabled c1env) c1rec.id).getD false :=
  @c1_theorem c1env [c1rec] c1rec (by decide) (by decide) (fun file hf => nomatch hf)

/-! ### Claim C10 -/

/-- C10: a registry key bound to an empty sequence of installation entries is
skipped by the `installedMap` construction (`if (entries[0])`), so aggregation
treats the plugin as not installed: when the id appears in a catalog, the
produced record has `isInstalled = false`, its `installedAt`, `lastUpdated`,
`gitCommitSha` (and `isLocal`) are absent, and its version falls back to the
catalog version of its generating entry, or the literal `unknown` when that is
absent or empty. -/
theorem c10_theorem {env : Env} {recs : List Plugin} {rec : Plugin}
    {file : InstalledPluginsFile}
    (hfile : env.installedPlugins = FileContent.valid file)
    (hload : loadAllPlugins env = .ok recs) (hmem : rec ∈ recs)
    (hkey : file.plugins.find? (fun kv => kv.1 = rec.id) = some (rec.id, [])) :
    rec.isInstalled = false ∧ rec.installedAt = none ∧ rec.lastUpdated = none ∧
      rec.gitCommitSha = none ∧ rec.isLocal = none ∧
      ∃ m mf entry, (m, FileContent.valid mf) ∈ env.marketplaces ∧
        entry ∈ mf.plugins ∧ rec.name = entry.name ∧ rec.marketplace = m ∧
        rec.version = jsStrOr entry.version "unknown" := by
  obtain ⟨m, mf, entry, hmk, hent, hrec⟩ := loadAllPlugins_ok_mem hload hmem
  subst hrec
  simp only [mkPluginRecord_id] at hkey
  have hnone :
      installedMapGet (envInstalled env) (entry.name ++ "@" ++ m) = none := by
    unfold envInstalled installedMapGet
    rw [hfile]
    simp [FileContent.toValue, hkey]
  refine ⟨?_, ?_, ?_, ?_, ?_, m, mf, entry, hmk, hent, ?_, ?_, ?_⟩
  · rw [mkPluginRecord_isInstalled, hnone]; rfl
  · rw [mkPluginRecord_installedAt, hnone]; rfl
  · rw [mkPluginRecord_lastUpdated, hnone]; rfl
  · rw [mkPluginRecord_gitCommitSha, hnone]; rfl
  · rw [mkPluginRecord_isLocal, hnone]; rfl
  · rw [mkPluginRecord_name]
  · rw [mkPluginRecord_marketplace]
  · rw [mkPluginRecord_version, hnone]; rfl

/-- A registry whose only binding maps `a@m` to an empty entry sequence. -/
def c10file : InstalledPluginsFile := { version := 1, plugins := [("a@m", [])] }

/-- The single catalog entry of the C10 witness inputs. -/
def c10entry : MarketplacePluginEntry :=
  { name := "a"
    description := some "demo"
    version := some "1.2.3"
    author := none
    category := none
    homepage := none
    tags := none
    keywords := none }

/-- Inputs for the C10 witness: the registry has the key `a@m` with an empty
entry list while the catalog of `m` lists `a`. -/
def c10env : Env :=
  { installedPlugins := .valid c10file
    installCountsCache := .absent
    settings := .valid { enabledPlugins := none, extra := [] }
    marketplacesDirExists := true
    marketplaces := [("m", .valid { name := "M", description := none, plugins := [c10entry] })] }

/-- The record produced for `a@m` under `c10env`. -/
def c10rec : Plugin :=
  { id := "a@m"
    name := "a"
    marketplace := "m"
    description := "demo"
    version := "1.2.3"
    installCount := 0
    isInstalled := false
    isEnabled := false
    installedAt := none
    lastUpdated := none
    category := none
    tags := none
    author := none
    homepage := none
    isLocal := none
    gitCommitSha := none }

/-- Witness for C10 at the concrete inputs of `c10env`. -/
theorem c10_witness :
    c10rec.isInstalled = false ∧ c10rec.installedAt = none ∧
      c10rec.lastUpdated = none ∧ c10rec.gitCommitSha = none ∧
      c10rec.isLocal = none ∧
      ∃ m mf entry, (m, FileContent.valid mf) ∈ c10env.marketplaces ∧
        entry ∈ mf.plugins ∧ c10rec.name = entry.name ∧ c10rec.marketplace = m ∧
        c10rec.version = jsStrOr entry.version "unknown" :=
  @c10_theorem c10env [c10rec] c10rec c10file rfl (by decide) (by decide) (by decide)

/-! ### Claim C2 -/

/-- Whether an `Except` value is an error. -/
def isErr : Except ε α → Bool
  | .error _ => true
  | .ok _ => false

/-- A marketplace list containing a malformed catalog makes the scan fail. -/
theorem scanMarketplaces_malformed_mem (installed : Option InstalledPluginsFile)
    (counts : Option InstallCountsFile) (enabledPlugins : List (String × Bool))
    {ms : List (String × FileContent MarketplaceFile)} {m : String}
    (hm : (m, FileContent.malformed) ∈ ms) :
    isErr (scanMarketplaces installed counts enabledPlugins ms) = true := by
  induction ms with
  | nil => simp at hm
  | cons head rest ih =>
    obtain ⟨m2, fc⟩ := head
    rcases List.mem_cons.mp hm with heq | htail
    · injection heq with h1 h2
      subst h1
      subst h2
      simp [scanMarketplaces, readJsonFile, isErr]
    · have htl := ih htail
      cases fc with
      | malformed => simp [scanMarketplaces, readJsonFile, isErr]
      | absent =>
        simp only [scanMarketplaces, readJsonFile]
        cases hrest : scanMarketplaces installed counts enabledPlugins rest with
        | error e => simp [isErr]
        | ok r => rw [hrest] at htl; simp [isErr] at htl
      | valid mf =>
        simp only [scanMarketplaces, readJsonFile]
        cases hrest : scanMarketplaces installed counts enabledPlugins rest with
        | error e => simp [isErr]
        | ok r => rw [hrest] at htl; simp [isErr] at htl

/-- A marketplace whose catalog document is missing contributes nothing: the
scan of a list containing it equals the scan of the list without it. -/
theorem scanMarketplaces_absent_skip (installed : Option InstalledPluginsFile)
    (counts : Option InstallCountsFile) (enabledPlugins : List (String × Bool))
    (ms1 ms2 : List (String × FileContent MarketplaceFile)) (m : String) :
    scanMarketplaces installed counts enabledPlugins
        (ms1 ++ (m, FileContent.absent) :: ms2) =
      scanMarketplaces installed counts enabledPlugins (ms1 ++ ms2) := by
  induction ms1 with
  | nil =>
    simp only [List.nil_append, scanMarketplaces, readJsonFile]
    cases scanMarketplaces installed counts enabledPlugins ms2 <;> simp
  | cons head rest ih =>
    obtain ⟨m2, fc⟩ := head
    simp only [List.cons_append, scanMarketplaces, List.append_eq]
    rw [ih]

/-- C2 (amended): a malformed installed-plugin registry, install-count cache
or settings document is fatal to the whole aggregation pass, and a missing
individual marketplace catalog is tolerated (that marketplace contributes
zero records and the pass continues as if it were not listed) — but, contrary
to the claim, a malformed individual marketplace catalog is also fatal to the
whole pass, since the loop reads it with the throwing `readJsonFile` and does
not catch. -/
theorem c2_theorem :
    (∀ env : Env, env.installedPlugins = FileContent.malformed →
      isErr (loadAllPlugins env) = true) ∧
    (∀ env : Env, env.installCountsCache = FileContent.malformed →
      isErr (loadAllPlugins env) = true) ∧
    (∀ env : Env, env.settings = FileContent.malformed →
      isErr (loadAllPlugins env) = true) ∧
    (∀ (env : Env) (m : String), env.marketplacesDirExists = true →
      (m, FileContent.malformed) ∈ env.marketplaces →
      isErr (loadAllPlugins env) = true) ∧
    (∀ (env : Env) (ms1 ms2 : List (String × FileContent MarketplaceFile)) (m : String),
      env.marketplaces = ms1 ++ (m, FileContent.absent) :: ms2 →
      loadAllPlugins env = loadAllPlugins { env with marketplaces := ms1 ++ ms2 }) := by
  refine ⟨?_, ?_, ?_, ?_, ?_⟩
  · intro env h
    unfold loadAllPlugins
    rw [h]
    simp [readJsonFile, isErr]
  · intro env h
    unfold loadAllPlugins
    rw [h]
    cases env.installedPlugins <;> simp [readJsonFile, isErr]
  · intro env h
    unfold loadAllPlugins
    rw [h]
    cases env.installedPlugins <;> cases env.installCountsCache <;>
      simp [readJsonFile, getEnabledPlugins, readSettings, isErr]
  · intro env m hdir hmem
    unfold loadAllPlugins
    rw [hdir]
    split
    · rfl
    next installed hinst =>
      split
      · rfl
      next counts hcounts =>
        split
        · rfl
        next enabled henabled =>
          split
          · rfl
          next plugins hscan =>
            simp only [if_true] at hscan
            have hbad := scanMarketplaces_malformed_mem installed counts enabled hmem
            rw [hscan] at hbad
            simp [isErr] at hbad
  · intro env ms1 ms2 m hms
    unfold loadAllPlugins
    simp only [hms, scanMarketplaces_absent_skip]

/-- Inputs making the registry read fail. -/
def c2envReg : Env :=
  { installedPlugins := .malformed
    installCountsCache := .absent
    settings := .absent
    marketplacesDirExists := false
    marketplaces := [] }

/-- Inputs making the install-count cache read fail. -/
def c2envCounts : Env :=
  { installedPlugins := .absent
    installCountsCache := .malformed
    settings := .absent
    marketplacesDirExists := false
    marketplaces := [] }

/-- Inputs making the settings read fail. -/
def c2envSettings : Env :=
  { installedPlugins := .absent
    installCountsCache := .absent
    settings := .malformed
    marketplacesDirExists := false
    marketplaces := [] }

/-- Inputs whose only marketplace has a malformed catalog while every other
document is fine. -/
def c2envCatalog : Env :=
  { installedPlugins := .absent
    installCountsCache := .absent
    settings := .valid { enabledPlugins := none, extra := [] }
    marketplacesDirExists := true
    marketplaces := [("m", .malformed)] }

/-- Inputs whose only marketplace has a missing catalog. -/
def c2envAbsent : Env :=
  { installedPlugins := .absent
    installCountsCache := .absent
    settings := .valid { enabledPlugins := none, extra := [] }
    marketplacesDirExists := true
    marketplaces := [("m", .absent)] }

/-- C2 is false as stated: under `c2envCatalog` every fatal-class document is
fine and exactly one marketplace catalog is malformed, yet the whole pass
fails with the malformed-document error instead of skipping that marketplace
and returning the (empty) remainder. -/
theorem c2_counterexample :
    loadAllPlugins c2envCatalog =
      .error ("Invalid JSON in " ++ getMarketplaceJsonPath "m") := by decide

/-- Witness for the amended C2: each fatal case at a concrete environment, and
the missing-catalog case at a concrete environment. -/
theorem c2_witness :
    isErr (loadAllPlugins c2envReg) = true ∧
    isErr (loadAllPlugins c2envCounts) = true ∧
    isErr (loadAllPlugins c2envSettings) = true ∧
    isErr (loadAllPlugins c2envCatalog) = true ∧
    loadAllPlugins c2envAbsent = loadAllPlugins { c2envAbsent with marketplaces := [] ++ [] } :=
  ⟨c2_theorem.1 c2envReg rfl,
   c2_theorem.2.1 c2envCounts rfl,
   c2_theorem.2.2.1 c2envSettings rfl,
   c2_theorem.2.2.2.1 c2envCatalog "m" rfl (by decide),
   c2_theorem.2.2.2.2 c2envAbsent [] [] "m" rfl⟩

/-! ### Claim C8 -/

/-- C8: `sortPlugins` returns a new sequence holding exactly the input
records (a permutation — in this pure model the input value is unchanged by
construction, which is the non-mutation half of the claim), and it is stable:
any two records that compare equal under the chosen key keep their relative
input order, for both ascending and descending direction. -/
theorem c8_theorem (plugins : List Plugin) (sortBy : SortBy) (order : SortOrder) :
    (sortPlugins plugins sortBy order).Perm plugins ∧
    ∀ a b : Plugin, [a, b].Sublist plugins → comparePlugins sortBy a b = 0 →
      [a, b].Sublist (sortPlugins plugins sortBy order) := by
  constructor
  · exact List.perm_insertionSort _ plugins
  · intro a b hsub heq
    apply List.pair_sublist_insertionSort _ hsub
    cases order <;> simp [heq]

/-- First record of the C8 witness: name `same`, inserted first. -/
def c8p1 : Plugin :=
  { id := "p1@m"
    name := "same"
    marketplace := "m"
    description := "first"
    version := "1"
    installCount := 5
    isInstalled := false
    isEnabled := false
    installedAt := none
    lastUpdated := none
    category := none
    tags := none
    author := none
    homepage := none
    isLocal := none
    gitCommitSha := none }

/-- Second record of the C8 witness: same name as `c8p1`, inserted second. -/
def c8p2 : Plugin :=
  { id := "p2@m"
    name := "same"
    marketplace := "m"
    description := "second"
    version := "2"
    installCount := 9
    isInstalled := true
    isEnabled := true
    installedAt := some "2024-01-01"
    lastUpdated := none
    category := none
    tags := none
    author := none
    homepage := none
    isLocal := none
    gitCommitSha := none }

/-- Witness for C8: sorting two equal-named records by name descending keeps
them a permutation of the input and preserves their relative order. -/
theorem c8_witness :
    (sortPlugins [c8p1, c8p2] SortBy.name SortOrder.desc).Perm [c8p1, c8p2] ∧
      [c8p1, c8p2].Sublist (sortPlugins [c8p1, c8p2] SortBy.name SortOrder.desc) :=
  ⟨(c8_theorem [c8p1, c8p2] SortBy.name SortOrder.desc).1,
   (c8_theorem [c8p1, c8p2] SortBy.name SortOrder.desc).2 c8p1 c8p2
     (List.Sublist.refl _) (by decide)⟩

/-! ### Claim C9 -/

/-- After a JavaScript-style assignment `obj[k] = v`, reading `obj[k]` yields
`v`, whether the key was updated in place or appended. -/
theorem objGet_objSet (m : List (String × Bool)) (k : String) (v : Bool) :
    objGet (objSet m k v) k = some v := by
  unfold objSet
  by_cases hany : (m.any fun kv => decide (kv.1 = k)) = true
  · rw [if_pos hany]
    induction m with
    | nil => simp at hany
    | cons head tail ih =>
      obtain ⟨a, b⟩ := head
      by_cases hak : a = k
      · subst hak
        simp [objGet]
      · simp only [List.any_cons, Bool.or_eq_true, decide_eq_true_eq] at hany
        rcases hany with h | h
        · exact absurd h hak
        · simp only [List.map_cons, if_neg hak]
          rw [objGet] at ih ⊢
          rw [List.find?_cons_of_neg]
          · exact ih h
          · simp [hak]
  · rw [if_neg hany]
    induction m with
    | nil => simp [objGet]
    | cons head tail ih =>
      obtain ⟨a, b⟩ := head
      simp only [List.any_cons, Bool.or_eq_true, decide_eq_true_eq, not_or] at hany
      obtain ⟨hak, htail⟩ := hany
      simp only [List.cons_append]
      rw [objGet] at ih ⊢
      rw [List.find?_cons_of_neg]
      · exact ih htail
      · simp [hak]

/-- C9: toggling a plugin id twice returns the plugin to its original enabled
value as observed through `isPluginEnabled`, and every key of the settings
document other than the enabled-plugins map (here: the `extra` association
list of preserved unknown fields) is identical before the first toggle and
after the second. -/
theorem c9_theorem (s : Settings) (pluginId : String) :
    ∃ r1 r2 : Bool × FileContent Settings,
      togglePlugin (FileContent.valid s) pluginId = .ok r1 ∧
      togglePlugin r1.2 pluginId = .ok r2 ∧
      ∃ s2 : Settings, r2.2 = FileContent.valid s2 ∧
        isPluginEnabled (FileContent.valid s2) pluginId =
          isPluginEnabled (FileContent.valid s) pluginId ∧
        s2.extra = s.extra := by
  refine ⟨_, _, rfl, rfl, _, rfl, ?_, rfl⟩
  simp [isPluginEnabled, getEnabledPlugins, readSettings, readJsonFile,
    objGet_objSet]

/-! ### Claim C5 -/

/-- Splitting a character list at a separator that occurs in neither left part
is unambiguous. -/
theorem append_sep_inj {n1 n2 m1 m2 : List Char}
    (h1 : '@' ∉ n1) (h2 : '@' ∉ n2)
    (h : n1 ++ '@' :: m1 = n2 ++ '@' :: m2) : n1 = n2 ∧ m1 = m2 := by
  induction n1 generalizing n2 with
  | nil =>
    cases n2 with
    | nil => simpa using h
    | cons c n2 =>
      simp only [List.nil_append, List.cons_append, List.cons.injEq] at h
      exact absurd (h.1 ▸ List.mem_cons_self _ _) h2
  | cons c n1 ih =>
    cases n2 with
    | nil =>
      simp only [List.nil_append, List.cons_append, List.cons.injEq] at h
      exact absurd (h.1.symm ▸ List.mem_cons_self _ _) h1
    | cons c2 n2 =>
      simp only [List.cons_append, List.cons.injEq] at h
      obtain ⟨hc, htail⟩ := h
      have h1t : '@' ∉ n1 := fun hx => h1 (List.mem_cons_of_mem _ hx)
      have h2t : '@' ∉ n2 := fun hx => h2 (List.mem_cons_of_mem _ hx)
      obtain ⟨ha, hb⟩ := ih h1t h2t htail
      exact ⟨by rw [hc, ha], hb⟩

/-- The composite id `name ++ "@" ++ marketplaceId` determines name and
marketplace uniquely as long as neither name contains the separator. -/
theorem pluginId_inj {n1 n2 m1 m2 : String}
    (h1 : '@' ∉ n1.data) (h2 : '@' ∉ n2.data)
    (h : n1 ++ "@" ++ m1 = n2 ++ "@" ++ m2) : n1 = n2 ∧ m1 = m2 := by
  have hd : n1.data ++ '@' :: m1.data = n2.data ++ '@' :: m2.data := by
    have hc := congrArg String.data h
    simpa [String.data_append] using hc
  obtain ⟨ha, hb⟩ := append_sep_inj h1 h2 hd
  refine ⟨?_, ?_⟩
  · cases n1; cases n2; simp only at ha; rw [ha]
  · cases m1; cases m2; simp only at hb; rw [hb]

/-- Names appearing in the scan output: each record of a successful scan of
marketplaces with pairwise-distinct directory names, each valid catalog
listing pairwise-distinct and separator-free plugin names, carries a globally
distinct composite id. -/
theorem scanMarketplaces_ids_nodup {installed : Option InstalledPluginsFile}
    {counts : Option InstallCountsFile} {enabledPlugins : List (String × Bool)}
    {ms : List (String × FileContent MarketplaceFile)} {recs : List Plugin}
    (h : scanMarketplaces installed counts enabledPlugins ms = .ok recs)
    (hmk : (ms.map Prod.fst).Nodup)
    (hnames : ∀ m mf, (m, FileContent.valid mf) ∈ ms →
      (mf.plugins.map (fun e => e.name)).Nodup ∧
        ∀ e ∈ mf.plugins, '@' ∉ e.name.data) :
    (recs.map (fun r => r.id)).Nodup := by
  induction ms generalizing recs with
  | nil =>
    simp only [scanMarketplaces, Except.ok.injEq] at h
    subst h
    simp
  | cons head rest ih =>
    obtain ⟨m, fc⟩ := head
    have hmkTail : (rest.map Prod.fst).Nodup := (List.nodup_cons.mp hmk).2
    have hmkHead : m ∉ rest.map Prod.fst := (List.nodup_cons.mp hmk).1
    have hnamesTail : ∀ m2 mf2, (m2, FileContent.valid mf2) ∈ rest →
        (mf2.plugins.map (fun e => e.name)).Nodup ∧
          ∀ e ∈ mf2.plugins, '@' ∉ e.name.data :=
      fun m2 mf2 hmem => hnames m2 mf2 (List.mem_cons_of_mem _ hmem)
    cases fc with
    | malformed => simp only [scanMarketplaces, readJsonFile] at h; cases h
    | absent =>
      simp only [scanMarketplaces, readJsonFile] at h
      cases hrest : scanMarketplaces installed counts enabledPlugins rest with
      | error e => rw [hrest] at h; cases h
      | ok restRecords =>
        rw [hrest] at h
        simp only [List.nil_append, Except.ok.injEq] at h
        subst h
        exact ih hrest hmkTail hnamesTail
    | valid mf =>
      simp only [scanMarketplaces, readJsonFile] at h
      cases hrest : scanMarketplaces installed counts enabledPlugins rest with
      | error e => rw [hrest] at h; cases h
      | ok restRecords =>
        rw [hrest] at h
        simp only [Except.ok.injEq] at h
        subst h
        obtain ⟨hnodupNames, hsep⟩ := hnames m mf (List.mem_cons_self _ _)
        rw [List.map_append, List.nodup_append]
        refine ⟨?_, ih hrest hmkTail hnamesTail, ?_⟩
        · -- ids of this catalog are distinct
          rw [List.map_map]
          have heq : ((fun r => Plugin.id r) ∘ mkPluginRecord installed counts enabledPlugins m) =
              (fun e : MarketplacePluginEntry => e.name ++ "@" ++ m) := by
            funext e
            simp [Function.comp, mkPluginRecord_id]
          rw [heq]
          have : (mf.plugins.map (fun e => e.name ++ "@" ++ m)) =
              (mf.plugins.map (fun e => e.name)).map (fun n => n ++ "@" ++ m) := by
            rw [List.map_map]
            rfl
          rw [this]
          refine List.Nodup.map ?_ hnodupNames
          intro a b hab
          have hc := congrArg String.data hab
          simp only [String.data_append] at hc
          have := List.append_cancel_right hc
          have := List.append_cancel_right this
          cases a; cases b; simp only at this; rw [this]
        · -- ids of this catalog never reappear for later marketplaces
          intro x hx hx2
          rw [List.map_map] at hx
          obtain ⟨e1, he1, hid1⟩ := List.mem_map.mp hx
          obtain ⟨r2, hr2, hid2⟩ := List.mem_map.mp hx2
          obtain ⟨m2, mf2, e2, hmem2, hent2, hrec2⟩ := mem_scanMarketplaces hrest hr2
          have hid1e : e1.name ++ "@" ++ m = x := by
            simpa [Function.comp, mkPluginRecord_id] using hid1
          have hid2e : e2.name ++ "@" ++ m2 = x := by
            rw [← hid2, hrec2, mkPluginRecord_id]
          have hsep2 := (hnamesTail m2 mf2 hmem2).2 e2 hent2
          have hinj := pluginId_inj (hsep e1 he1) hsep2 (hid1e.trans hid2e.symm)
          exact hmkHead (hinj.2 ▸ List.mem_map_of_mem Prod.fst hmem2)

/-- C5 (amended): within one aggregation pass the composite ids of the
returned records are pairwise distinct, provided the scanned marketplace
directory names are pairwise distinct (they are a directory listing), each
catalog lists pairwise-distinct plugin names, and no plugin name contains the
`@` separator. Without the last two provisos the claim fails
(`c5_counterexample`). -/
theorem c5_theorem {env : Env} {recs : List Plugin}
    (hload : loadAllPlugins env = .ok recs)
    (hmk : (env.marketplaces.map Prod.fst).Nodup)
    (hnames : ∀ m mf, (m, FileContent.valid mf) ∈ env.marketplaces →
      (mf.plugins.map (fun e => e.name)).Nodup ∧
        ∀ e ∈ mf.plugins, '@' ∉ e.name.data) :
    (recs.map (fun r => r.id)).Nodup := by
  obtain ⟨plugins, hscan, hrecs⟩ := loadAllPlugins_ok_scan hload
  subst hrecs
  have hperm : (jsSortBy (fun a b => b.installCount - a.installCount) plugins).Perm plugins :=
    List.perm_insertionSort _ _
  refine ((hperm.map (fun r => r.id)).nodup_iff).mpr ?_
  cases hd : env.marketplacesDirExists with
  | false =>
    rw [hd, if_neg (by simp)] at hscan
    cases hscan
    simp
  | true =>
    rw [hd, if_pos rfl] at hscan
    exact scanMarketplaces_ids_nodup hscan hmk hnames

/-- First duplicate-named catalog entry of the C5 counterexample. -/
def c5entry1 : MarketplacePluginEntry :=
  { name := "a"
    description := some "x"
    version := none
    author := none
    category := none
    homepage := none
    tags := none
    keywords := none }

/-- Second duplicate-named catalog entry of the C5 counterexample. -/
def c5entry2 : MarketplacePluginEntry :=
  { name := "a"
    description := some "y"
    version := none
    author := none
    category := none
    homepage := none
    tags := none
    keywords := none }

/-- The single catalog of the C5 counterexample, listing the name `a` twice. -/
def c5catalog : MarketplaceFile :=
  { name := "M"
    description := none
    plugins := [c5entry1, c5entry2] }

/-- Inputs whose single catalog lists the name `a` twice. -/
def c5env : Env :=
  { installedPlugins := .absent
    installCountsCache := .absent
    settings := .valid { enabledPlugins := none, extra := [] }
    marketplacesDirExists := true
    marketplaces := [("m", .valid c5catalog)] }

/-- First record produced under `c5env`. -/
def c5rec1 : Plugin :=
  { id := "a@m"
    name := "a"
    marketplace := "m"
    description := "x"
    version := "unknown"
    installCount := 0
    isInstalled := false
    isEnabled := false
    installedAt := none
    lastUpdated := none
    category := none
    tags := none
    author := none
    homepage := none
    isLocal := none
    gitCommitSha := none }

/-- Second record produced under `c5env`; it differs from `c5rec1` yet shares
its id. -/
def c5rec2 : Plugin := { c5rec1 with description := "y" }

/-- C5 is false for arbitrary catalog content: a catalog may list the same
plugin name twice, and then a single aggregation pass returns two distinct
records with the same composite id. -/
theorem c5_counterexample :
    loadAllPlugins c5env = .ok [c5rec1, c5rec2] ∧
      c5rec1 ≠ c5rec2 ∧ c5rec1.id = c5rec2.id := by
  refine ⟨by decide, by decide, rfl⟩

/-- Catalog of the C5 witness inputs: two distinct, separator-free names. -/
def c5wcatalog : MarketplaceFile :=
  { name := "M"
    description := none
    plugins := [c5entry1, { c5entry2 with name := "b" }] }

/-- Inputs for the C5 witness: one marketplace, two distinct plugin names. -/
def c5wenv : Env :=
  { installedPlugins := .absent
    installCountsCache := .absent
    settings := .valid { enabledPlugins := none, extra := [] }
    marketplacesDirExists := true
    marketplaces := [("m", .valid c5wcatalog)] }

/-- The two records produced under `c5wenv`. -/
def c5wrec1 : Plugin := c5rec1

/-- Second record produced under `c5wenv`. -/
def c5wrec2 : Plugin := { c5rec1 with id := "b@m", name := "b", description := "y" }

/-- Witness for the amended C5 at the concrete inputs of `c5wenv`. -/
theorem c5_witness : (([c5wrec1, c5wrec2] : List Plugin).map (fun r => r.id)).Nodup :=
  @c5_theorem c5wenv [c5wrec1, c5wrec2] (by decide) (by decide)
    (fun m mf hmem => by
      simp [c5wenv] at hmem
      obtain ⟨rfl, rfl⟩ := hmem
      exact ⟨by decide, by decide⟩)

/-! ### Claim C3 -/

/-- The selection bound of the claim: `selectedIndex` within
`[0, max(0, itemCount - 1)]` for the current item list of the active view. -/
def SelInBounds (s : AppState) : Prop :=
  0 ≤ s.selectedIndex ∧
    s.selectedIndex ≤ max 0 (((getItemsForTab s).length : Int) - 1)

instance (s : AppState) : Decidable (SelInBounds s) :=
  inferInstanceAs (Decidable (_ ∧ _))

/-- The reducer actions outside the list-replacing group: everything except
`SET_PLUGINS`, `SET_MARKETPLACES`, `SET_ERRORS`, `SET_SELECTED_INDEX` and
`UPDATE_PLUGIN`. -/
def SafeAction : Action → Prop
  | .SET_PLUGINS _ => False
  | .SET_MARKETPLACES _ => False
  | .SET_ERRORS _ => False
  | .SET_SELECTED_INDEX _ => False
  | .UPDATE_PLUGIN _ => False
  | _ => True

/-- An installed plugin used by the C3 counterexample. -/
def c3plugin1 : Plugin :=
  { id := "p1@m"
    name := "p1"
    marketplace := "m"
    description := ""
    version := "1"
    installCount := 0
    isInstalled := true
    isEnabled := true
    installedAt := none
    lastUpdated := none
    category := none
    tags := none
    author := none
    homepage := none
    isLocal := none
    gitCommitSha := none }

/-- A second installed plugin used by the C3 counterexample. -/
def c3plugin2 : Plugin := { c3plugin1 with id := "p2@m", name := "p2" }

/-- C3 is false on the code: the state reached from `initialState` by loading
two installed plugins, switching to the Installed view, moving the selection
down and then reloading a plugin list with only one installed plugin (exactly
what `handleUninstall` dispatches after a successful uninstall) leaves
`selectedIndex = 1` while the view has a single item, outside
`[0, max(0, itemCount - 1)]`: `SET_PLUGINS` does not re-clamp the index. -/
theorem c3_counterexample :
    ¬ SelInBounds (List.foldl appReducer initialState
      [Action.SET_PLUGINS [c3plugin1, c3plugin2], Action.SET_TAB Tab.installed,
       Action.MOVE_SELECTION MoveDir.down, Action.SET_PLUGINS [c3plugin1]]) := by
  decide

/-- The function `getItemsForTab` ignores `selectedIndex` and `message`. -/
theorem getItemsForTab_upd (s : AppState) (i : Int) (msg : Option String) :
    getItemsForTab { s with selectedIndex := i, message := msg } =
      getItemsForTab s := rfl

/-- The toggle map flips only `isEnabled`, so the search predicate is
unchanged. -/
theorem toggleEnabled_matches (lowerQuery : String) (pluginId : String) (p : Plugin) :
    matchesQuery lowerQuery (toggleEnabled pluginId p) = matchesQuery lowerQuery p := by
  unfold toggleEnabled
  split <;> rfl

/-- The toggle map flips only `isEnabled`, so `isInstalled` is unchanged. -/
theorem toggleEnabled_isInstalled (pluginId : String) (p : Plugin) :
    (toggleEnabled pluginId p).isInstalled = p.isInstalled := by
  unfold toggleEnabled
  split <;> rfl

/-- Filtering a mapped list whose map preserves the predicate preserves the
filtered length. -/
theorem length_filter_map_congr {α : Type} (f : α → α) (pr : α → Bool)
    (h : ∀ a, pr (f a) = pr a) (l : List α) :
    ((l.map f).filter pr).length = (l.filter pr).length := by
  induction l with
  | nil => rfl
  | cons a l ih =>
    simp only [List.map_cons, List.filter_cons, h a]
    cases pr a <;> simp [ih]

/-- Toggling a plugin id changes the item count of no view. -/
theorem getItemsForTab_toggle_length (s : AppState) (pluginId : String) :
    (getItemsForTab { s with plugins := s.plugins.map (toggleEnabled pluginId) }).length =
      (getItemsForTab s).length := by
  unfold getItemsForTab
  dsimp only
  cases s.activeTab with
  | discover =>
    simp only [List.length_map]
    unfold getFilteredPlugins
    dsimp only
    by_cases hq : s.searchQuery ≠ ""
    · rw [if_pos hq, if_pos hq]
      unfold sortPlugins jsSortBy
      rw [List.length_insertionSort, List.length_insertionSort]
      unfold searchPlugins
      exact length_filter_map_congr _ _ (toggleEnabled_matches _ _) _
    · rw [if_neg hq, if_neg hq]
      unfold sortPlugins jsSortBy
      rw [List.length_insertionSort, List.length_insertionSort, List.length_map]
  | installed =>
    simp only [List.length_map]
    exact length_filter_map_congr _ _ (toggleEnabled_isInstalled _) _
  | marketplaces => rfl
  | errors => rfl

/-- C3 (amended): the clamped-selection bound holds initially and is preserved
by every reducer action outside the list-replacing group; the excluded
actions (`SET_PLUGINS`, `SET_MARKETPLACES`, `SET_ERRORS`,
`SET_SELECTED_INDEX`, `UPDATE_PLUGIN`) can move `selectedIndex` out of range,
as `c3_counterexample` shows for the `SET_PLUGINS` dispatched after an
uninstall. -/
theorem c3_theorem :
    SelInBounds initialState ∧
    ∀ (s : AppState) (a : Action), SelInBounds s → SafeAction a →
      SelInBounds (appReducer s a) := by
  refine ⟨by decide, ?_⟩
  intro s a hs ha
  obtain ⟨hs0, hs1⟩ := hs
  cases a with
  | SET_PLUGINS p => exact absurd ha (by simp [SafeAction])
  | SET_MARKETPLACES p => exact absurd ha (by simp [SafeAction])
  | SET_ERRORS p => exact absurd ha (by simp [SafeAction])
  | SET_SELECTED_INDEX p => exact absurd ha (by simp [SafeAction])
  | UPDATE_PLUGIN p => exact absurd ha (by simp [SafeAction])
  | SET_TAB t => exact ⟨le_refl 0, le_max_left 0 _⟩
  | NEXT_TAB => exact ⟨le_refl 0, le_max_left 0 _⟩
  | PREV_TAB => exact ⟨le_refl 0, le_max_left 0 _⟩
  | SET_SEARCH_QUERY q => exact ⟨le_refl 0, le_max_left 0 _⟩
  | SET_SORT sb so => exact ⟨le_refl 0, le_max_left 0 _⟩
  | SET_LOADING b => exact ⟨hs0, hs1⟩
  | SET_ERROR e => exact ⟨hs0, hs1⟩
  | SET_MESSAGE msg => exact ⟨hs0, hs1⟩
  | START_OPERATION op pid => exact ⟨hs0, hs1⟩
  | END_OPERATION => exact ⟨hs0, hs1⟩
  | SHOW_CONFIRM_UNINSTALL pid => exact ⟨hs0, hs1⟩
  | HIDE_CONFIRM_UNINSTALL => exact ⟨hs0, hs1⟩
  | TOGGLE_PLUGIN_ENABLED pid =>
    have hred : appReducer s (.TOGGLE_PLUGIN_ENABLED pid) =
        { s with plugins := s.plugins.map (toggleEnabled pid) } := rfl
    rw [hred]
    unfold SelInBounds
    dsimp only
    rw [getItemsForTab_toggle_length]
    exact ⟨hs0, hs1⟩
  | MOVE_SELECTION dir =>
    by_cases hlen : (getItemsForTab s).length = 0
    · cases dir with
      | up =>
        have hred : appReducer s (.MOVE_SELECTION .up) = s := by
          show (if (getItemsForTab s).length = 0 then s else
            { s with selectedIndex := max 0 (s.selectedIndex - 1), message := none }) = s
          rw [if_pos hlen]
        rw [hred]
        exact ⟨hs0, hs1⟩
      | down =>
        have hred : appReducer s (.MOVE_SELECTION .down) = s := by
          show (if (getItemsForTab s).length = 0 then s else
            { s with selectedIndex := min (max 0 (((getItemsForTab s).length : Int) - 1)) (s.selectedIndex + 1), message := none }) = s
          rw [if_pos hlen]
        rw [hred]
        exact ⟨hs0, hs1⟩
    · have hlen1 : 1 ≤ ((getItemsForTab s).length : Int) := by
        have := Nat.pos_of_ne_zero hlen
        exact_mod_cast this
      cases dir with
      | up =>
        have hred : appReducer s (.MOVE_SELECTION .up) =
            { s with selectedIndex := max 0 (s.selectedIndex - 1), message := none } := by
          show (if (getItemsForTab s).length = 0 then s else
            { s with selectedIndex := max 0 (s.selectedIndex - 1), message := none }) = _
          rw [if_neg hlen]
        rw [hred]
        show 0 ≤ max 0 (s.selectedIndex - 1) ∧
          max 0 (s.selectedIndex - 1) ≤ max 0 (((getItemsForTab s).length : Int) - 1)
        omega
      | down =>
        have hred : appReducer s (.MOVE_SELECTION .down) =
            { s with selectedIndex := min (max 0 (((getItemsForTab s).length : Int) - 1)) (s.selectedIndex + 1), message := none } := by
          show (if (getItemsForTab s).length = 0 then s else
            { s with selectedIndex := min (max 0 (((getItemsForTab s).length : Int) - 1)) (s.selectedIndex + 1), message := none }) = _
          rw [if_neg hlen]
        rw [hred]
        show 0 ≤ min (max 0 (((getItemsForTab s).length : Int) - 1)) (s.selectedIndex + 1) ∧
          min (max 0 (((getItemsForTab s).length : Int) - 1)) (s.selectedIndex + 1) ≤
            max 0 (((getItemsForTab s).length : Int) - 1)
        omega

/-- Witness for the amended C3: the bound after one safe action from the
initial state. -/
theorem c3_witness :
    SelInBounds (appReducer initialState (Action.MOVE_SELECTION MoveDir.down)) :=
  c3_theorem.2 initialState (Action.MOVE_SELECTION MoveDir.down) (by decide) trivial

/-! ### Claim C6 -/

/-- C6: while a mutating operation is in flight (`operation` is not `idle`),
every key event leaves the interaction state — reducer state, search-mode
flag and the settings document — unchanged and launches no effect: the
handler discards all input until the operation completes (completion is the
promise resolution of the in-flight action, not a key event). -/
theorem c6_theorem (settingsFile : FileContent Settings) (s : AppState)
    (isSearchMode : Bool) (ev : InputEvent)
    (h : s.operation ≠ Operation.idle) :
    handleInput settingsFile s isSearchMode ev =
      { state := s
        isSearchMode := isSearchMode
        settingsFile := settingsFile
        effects := [] } := by
  have hb : (s.operation != Operation.idle) = true := bne_iff_ne.mpr h
  simp only [handleInput, hb, if_true]

/-- A state with an installation in flight. -/
def c6state : AppState := { initialState with operation := Operation.installing }

/-- Witness for C6 at a concrete in-flight state and key event. -/
theorem c6_witness :
    handleInput FileContent.absent c6state false (plainKeyEvent "q") =
      { state := c6state
        isSearchMode := false
        settingsFile := FileContent.absent
        effects := [] } :=
  c6_theorem FileContent.absent c6state false (plainKeyEvent "q") (by decide)

/-! ### Claim C4 -/

/-- A confirmation-pending state with no operation in flight. -/
def c4state : AppState :=
  { initialState with
    loading := false
    confirmUninstall := true
    operationPluginId := some "a@m" }

/-- C4 is false on the code: `c4state` is not in-flight (`operation` is idle)
and has the uninstall confirmation dialog pending, yet pressing the quit key
produces no exit effect and changes nothing — the confirmation branch of the
input handler swallows every key other than affirm, deny and escape, so quit
is not honored while a confirmation dialog is pending. -/
theorem c4_counterexample :
    c4state.operation = Operation.idle ∧
      handleInput FileContent.absent c4state false (plainKeyEvent "q") =
        { state := c4state
          isSearchMode := false
          settingsFile := FileContent.absent
          effects := [] } := by
  exact ⟨rfl, by decide⟩

/-- C4 (amended): the quit key emits the exit effect — and changes nothing
else — from every state in which no operation is in flight, no uninstall
confirmation is pending, and search-entry mode is not active. It is swallowed
while a confirmation dialog is pending (`c4_counterexample`), and in search
mode the same key is appended to the query instead. -/
theorem c4_theorem (settingsFile : FileContent Settings) (s : AppState)
    (hop : s.operation = Operation.idle)
    (hconf : (s.confirmUninstall && jsTruthy s.operationPluginId) = false) :
    handleInput settingsFile s false (plainKeyEvent "q") =
      { state := s
        isSearchMode := false
        settingsFile := settingsFile
        effects := [Effect.exitApp] } := by
  simp [handleInput, plainKeyEvent, hop, hconf]

/-- An idle navigating state. -/
def c4idle : AppState := { initialState with loading := false }

/-- Witness for the amended C4 at a concrete idle state. -/
theorem c4_witness :
    handleInput FileContent.absent c4idle false (plainKeyEvent "q") =
      { state := c4idle
        isSearchMode := false
        settingsFile := FileContent.absent
        effects := [Effect.exitApp] } :=
  c4_theorem FileContent.absent c4idle rfl (by decide)

/-! ### Claim C7 -/

/-- The item list the toggle, install and uninstall branches of the input
handler read (`app.tsx` lines 423-426, 489-492, 511-514). -/
def actionItems (state : AppState) : List Plugin :=
  if state.activeTab == Tab.installed then state.plugins.filter (fun p => p.isInstalled)
  else getFilteredPlugins state

/-- How each reducer action changes the `operation` tag: only
`START_OPERATION` and `END_OPERATION` touch it. -/
theorem appReducer_operation (s : AppState) (a : Action) :
    (appReducer s a).operation =
      match a with
      | .START_OPERATION op _ => op.toOperation
      | .END_OPERATION => Operation.idle
      | _ => s.operation := by
  cases a <;> first
    | rfl
    | (dsimp only [appReducer]; split <;> rfl)

/-- Outside the confirmation branch, no key event starts an uninstall: with no
operation in flight and the confirmation guard false, the handler neither
moves `operation` to `uninstalling` nor launches an uninstall effect. -/
theorem handleInput_no_uninstall (settingsFile : FileContent Settings)
    (s : AppState) (m : Bool) (ev : InputEvent)
    (hop : s.operation = Operation.idle)
    (hc : (s.confirmUninstall && jsTruthy s.operationPluginId) = false) :
    (handleInput settingsFile s m ev).state.operation ≠ Operation.uninstalling ∧
      ∀ pid, Effect.runUninstall pid ∉ (handleInput settingsFile s m ev).effects := by
  unfold handleInput
  rw [if_neg (by simp [hop])]
  rw [if_neg (by simp [hc])]
  by_cases h1 : m = true
  · rw [if_pos h1]
    by_cases h2 : (ev.key.escape || ev.key.returnKey) = true
    · rw [if_pos h2]
      exact ⟨by simp [hop], by simp⟩
    · rw [if_neg h2]
      by_cases h3 : (ev.key.backspace || ev.key.delete) = true
      · rw [if_pos h3]
        exact ⟨by simp [appReducer_operation, hop], by simp⟩
      · rw [if_neg h3]
        by_cases h4 : (ev.input != "" && ev.input.length == 1 && !ev.key.ctrl && !ev.key.meta) = true
        · rw [if_pos h4]
          exact ⟨by simp [appReducer_operation, hop], by simp⟩
        · rw [if_neg h4]
          exact ⟨by simp [hop], by simp⟩
  · rw [if_neg h1]
    by_cases h5 : (ev.key.ctrl && ev.input == "p") = true
    · rw [if_pos h5]
      exact ⟨by simp [appReducer_operation, hop], by simp⟩
    · rw [if_neg h5]
      by_cases h6 : (ev.key.ctrl && ev.input == "n") = true
      · rw [if_pos h6]
        exact ⟨by simp [appReducer_operation, hop], by simp⟩
      · rw [if_neg h6]
        by_cases h7 : ev.key.leftArrow = true
        · rw [if_pos h7]
          exact ⟨by simp [appReducer_operation, hop], by simp⟩
        · rw [if_neg h7]
          by_cases h8 : ev.key.rightArrow = true
          · rw [if_pos h8]
            exact ⟨by simp [appReducer_operation, hop], by simp⟩
          · rw [if_neg h8]
            by_cases h9 : ev.key.tab = true
            · rw [if_pos h9]
              exact ⟨by simp [appReducer_operation, hop], by simp⟩
            · rw [if_neg h9]
              by_cases h10 : ev.key.upArrow = true
              · rw [if_pos h10]
                exact ⟨by simp [appReducer_operation, hop], by simp⟩
              · rw [if_neg h10]
                by_cases h11 : ev.key.downArrow = true
                · rw [if_pos h11]
                  exact ⟨by simp [appReducer_operation, hop], by simp⟩
                · rw [if_neg h11]
                  by_cases h12 : (ev.input == "/" && s.activeTab == Tab.discover) = true
                  · rw [if_pos h12]
                    exact ⟨by simp [hop], by simp⟩
                  · rw [if_neg h12]
                    by_cases h13 : ((ev.input == " " || ev.key.returnKey) && (s.activeTab == Tab.discover || s.activeTab == Tab.installed)) = true
                    · rw [if_pos h13]
                      cases hJ : jsIndex (if s.activeTab == Tab.installed then s.plugins.filter (fun p => p.isInstalled) else getFilteredPlugins s) s.selectedIndex with
                      | none => simp only [hJ]; exact ⟨by simp [hop], by simp⟩
                      | some sel =>
                        simp only [hJ]
                        by_cases hI : sel.isInstalled = true
                        · rw [if_pos hI]
                          cases hT : togglePlugin settingsFile sel.id with
                          | ok result =>
                            simp only [hT]
                            exact ⟨by simp [appReducer_operation, hop], by simp⟩
                          | error e =>
                            simp only [hT]
                            exact ⟨by simp [appReducer_operation, hop], by simp⟩
                        · rw [if_neg hI]
                          exact ⟨by simp [hop], by simp⟩
                    · rw [if_neg h13]
                      by_cases h14 : (ev.input == "s" && s.activeTab == Tab.discover) = true
                      · rw [if_pos h14]
                        exact ⟨by simp [appReducer_operation, hop], by simp⟩
                      · rw [if_neg h14]
                        by_cases h15 : (ev.input == "S" && s.activeTab == Tab.discover) = true
                        · rw [if_pos h15]
                          exact ⟨by simp [appReducer_operation, hop], by simp⟩
                        · rw [if_neg h15]
                          by_cases h16 : (ev.key.escape && s.searchQuery != "") = true
                          · rw [if_pos h16]
                            exact ⟨by simp [appReducer_operation, hop], by simp⟩
                          · rw [if_neg h16]
                            by_cases h17 : (ev.input == "i" && (s.activeTab == Tab.discover || s.activeTab == Tab.installed)) = true
                            · rw [if_pos h17]
                              cases hJ : jsIndex (if s.activeTab == Tab.installed then s.plugins.filter (fun p => p.isInstalled) else getFilteredPlugins s) s.selectedIndex with
                              | none => simp only [hJ]; exact ⟨by simp [hop], by simp⟩
                              | some sel =>
                                simp only [hJ]
                                by_cases hI : (!sel.isInstalled) = true
                                · rw [if_pos hI]
                                  exact ⟨by simp [appReducer_operation, OpKind.toOperation], by simp⟩
                                · rw [if_neg hI]
                                  exact ⟨by simp [appReducer_operation, hop], by simp⟩
                            · rw [if_neg h17]
                              by_cases h18 : (ev.input == "u" && (s.activeTab == Tab.discover || s.activeTab == Tab.installed)) = true
                              · rw [if_pos h18]
                                cases hJ : jsIndex (if s.activeTab == Tab.installed then s.plugins.filter (fun p => p.isInstalled) else getFilteredPlugins s) s.selectedIndex with
                                | none => simp only [hJ]; exact ⟨by simp [hop], by simp⟩
                                | some sel =>
                                  simp only [hJ]
                                  by_cases hI : sel.isInstalled = true
                                  · rw [if_pos hI]
                                    exact ⟨by simp [appReducer_operation, hop], by simp⟩
                                  · rw [if_neg hI]
                                    exact ⟨by simp [appReducer_operation, hop], by simp⟩
                              · rw [if_neg h18]
                                by_cases h19 : (ev.input == "q" || (ev.key.ctrl && ev.input == "c")) = true
                                · rw [if_pos h19]
                                  exact ⟨by simp [hop], by simp⟩
                                · rw [if_neg h19]
                                  exact ⟨by simp [hop], by simp⟩

/-- The uninstall key on an installed selected plugin only enters the
confirmation state: no state change beyond the dialog, no effect, no write. -/
theorem handleInput_uninstall_key (settingsFile : FileContent Settings)
    (s : AppState) (sel : Plugin)
    (hop : s.operation = Operation.idle)
    (hconf : (s.confirmUninstall && jsTruthy s.operationPluginId) = false)
    (htab : (s.activeTab == Tab.discover || s.activeTab == Tab.installed) = true)
    (hsel : jsIndex (actionItems s) s.selectedIndex = some sel)
    (hinst : sel.isInstalled = true) :
    handleInput settingsFile s false (plainKeyEvent "u") =
      { state := { s with confirmUninstall := true, operationPluginId := some sel.id }
        isSearchMode := false
        settingsFile := settingsFile
        effects := [] } := by
  unfold actionItems at hsel
  simp only [beq_iff_eq] at hsel
  simp [handleInput, plainKeyEvent, hop, hconf, htab, hinst, appReducer, hsel]

/-- The tag `operation = uninstalling` is reachable from an idle state only through
the confirmation dialog with an affirmative key. -/
theorem handleInput_uninstalling_only_confirm (settingsFile : FileContent Settings)
    (s : AppState) (m : Bool) (ev : InputEvent)
    (hop : s.operation = Operation.idle)
    (hres : (handleInput settingsFile s m ev).state.operation = Operation.uninstalling) :
    s.confirmUninstall = true ∧ (ev.input == "y" || ev.input == "Y") = true := by
  by_cases hc : (s.confirmUninstall && jsTruthy s.operationPluginId) = true
  · obtain ⟨hcu, htr⟩ := Bool.and_eq_true_iff.mp hc
    unfold handleInput at hres
    rw [if_neg (by simp [hop]), if_pos hc] at hres
    cases hpid : s.operationPluginId with
    | none => rw [hpid] at htr; simp [jsTruthy] at htr
    | some pid2 =>
      rw [hpid] at hres
      dsimp only at hres
      by_cases hy : (ev.input == "y" || ev.input == "Y") = true
      · exact ⟨hcu, hy⟩
      · rw [if_neg hy] at hres
        by_cases hn : (ev.input == "n" || ev.input == "N" || ev.key.escape) = true
        · rw [if_pos hn] at hres
          simp [appReducer, hop] at hres
        · rw [if_neg hn] at hres
          simp [hop] at hres
  · exact absurd hres
      (handleInput_no_uninstall settingsFile s m ev hop (by simpa using hc)).1

/-- The uninstall subprocess is launched only by an affirmative key in the
confirmation dialog for exactly the pending plugin id. -/
theorem handleInput_runUninstall_only_affirm (settingsFile : FileContent Settings)
    (s : AppState) (m : Bool) (ev : InputEvent) (pid : String)
    (hres : Effect.runUninstall pid ∈ (handleInput settingsFile s m ev).effects) :
    s.operation = Operation.idle ∧ s.confirmUninstall = true ∧
      s.operationPluginId = some pid ∧ (ev.input == "y" || ev.input == "Y") = true := by
  by_cases hop : s.operation = Operation.idle
  case neg =>
    exfalso
    rw [handleInput] at hres
    rw [if_pos (bne_iff_ne.mpr hop)] at hres
    simp at hres
  case pos =>
  by_cases hc : (s.confirmUninstall && jsTruthy s.operationPluginId) = true
  · obtain ⟨hcu, htr⟩ := Bool.and_eq_true_iff.mp hc
    unfold handleInput at hres
    rw [if_neg (by simp [hop]), if_pos hc] at hres
    cases hpid : s.operationPluginId with
    | none => rw [hpid] at htr; simp [jsTruthy] at htr
    | some pid2 =>
      rw [hpid] at hres
      dsimp only at hres
      by_cases hy : (ev.input == "y" || ev.input == "Y") = true
      · rw [if_pos hy] at hres
        simp only [List.mem_singleton, Effect.runUninstall.injEq] at hres
        refine ⟨hop, hcu, ?_, hy⟩
        exact congrArg some hres.symm
      · exfalso
        rw [if_neg hy] at hres
        by_cases hn : (ev.input == "n" || ev.input == "N" || ev.key.escape) = true
        · rw [if_pos hn] at hres
          simp at hres
        · rw [if_neg hn] at hres
          simp at hres
  · exact absurd hres
      ((handleInput_no_uninstall settingsFile s m ev hop (by simpa using hc)).2 pid)

/-- A deny or escape response in the confirmation dialog returns to navigation
with the cancellation message and no effect. -/
theorem handleInput_confirm_deny (settingsFile : FileContent Settings)
    (s : AppState) (m : Bool) (ev : InputEvent) (pid : String)
    (hop : s.operation = Operation.idle)
    (hcu : s.confirmUninstall = true)
    (hpid : s.operationPluginId = some pid)
    (htr : jsTruthy s.operationPluginId = true)
    (hy : (ev.input == "y" || ev.input == "Y") = false)
    (hn : (ev.input == "n" || ev.input == "N" || ev.key.escape) = true) :
    handleInput settingsFile s m ev =
      { state := { s with confirmUninstall := false, operationPluginId := none, message := some "Uninstall cancelled" }
        isSearchMode := m
        settingsFile := settingsFile
        effects := [] } := by
  rw [hpid] at htr
  have hne : ¬ pid = "" := by simpa [jsTruthy] using htr
  simp [handleInput, hop, hcu, hpid, hy, hn, appReducer, jsTruthy, hne]

/-- An installed plugin for the C7 witness. -/
def c7plugin : Plugin :=
  { id := "p@m"
    name := "p"
    marketplace := "m"
    description := ""
    version := "1"
    installCount := 0
    isInstalled := true
    isEnabled := true
    installedAt := none
    lastUpdated := none
    category := none
    tags := none
    author := none
    homepage := none
    isLocal := none
    gitCommitSha := none }

/-- An idle navigating state on the Installed tab with one installed plugin. -/
def c7nav : AppState :=
  { initialState with
    loading := false
    activeTab := Tab.installed
    plugins := [c7plugin] }

/-- A confirmation-pending state for `p@m`. -/
def c7confirm : AppState :=
  { initialState with
    loading := false
    confirmUninstall := true
    operationPluginId := some "p@m" }

/-- C7: (i) the uninstall key on an installed selected plugin only enters the
confirmation state — the state changes only by showing the dialog for that
plugin id, no effect is launched and no document is written; (ii) from an
idle state, `operation = uninstalling` is reachable only when the
confirmation dialog was pending and the key was affirmative; (iii) the
uninstall subprocess effect is launched only from the pending confirmation,
only by an affirmative key, and only for the pending plugin id; (iv) a deny
or escape key in the confirmation returns to navigation with the cancellation
message and no side effect. -/
theorem c7_theorem :
    (∀ (settingsFile : FileContent Settings) (s : AppState) (sel : Plugin),
      s.operation = Operation.idle →
      (s.confirmUninstall && jsTruthy s.operationPluginId) = false →
      (s.activeTab == Tab.discover || s.activeTab == Tab.installed) = true →
      jsIndex (actionItems s) s.selectedIndex = some sel →
      sel.isInstalled = true →
      handleInput settingsFile s false (plainKeyEvent "u") =
        { state := { s with confirmUninstall := true, operationPluginId := some sel.id }
          isSearchMode := false
          settingsFile := settingsFile
          effects := [] }) ∧
    (∀ (settingsFile : FileContent Settings) (s : AppState) (m : Bool) (ev : InputEvent),
      s.operation = Operation.idle →
      (handleInput settingsFile s m ev).state.operation = Operation.uninstalling →
      s.confirmUninstall = true ∧ (ev.input == "y" || ev.input == "Y") = true) ∧
    (∀ (settingsFile : FileContent Settings) (s : AppState) (m : Bool) (ev : InputEvent) (pid : String),
      Effect.runUninstall pid ∈ (handleInput settingsFile s m ev).effects →
      s.operation = Operation.idle ∧ s.confirmUninstall = true ∧
        s.operationPluginId = some pid ∧ (ev.input == "y" || ev.input == "Y") = true) ∧
    (∀ (settingsFile : FileContent Settings) (s : AppState) (m : Bool) (ev : InputEvent) (pid : String),
      s.operation = Operation.idle →
      s.confirmUninstall = true →
      s.operationPluginId = some pid →
      jsTruthy s.operationPluginId = true →
      (ev.input == "y" || ev.input == "Y") = false →
      (ev.input == "n" || ev.input == "N" || ev.key.escape) = true →
      handleInput settingsFile s m ev =
        { state := { s with confirmUninstall := false, operationPluginId := none, message := some "Uninstall cancelled" }
          isSearchMode := m
          settingsFile := settingsFile
          effects := [] }) :=
  ⟨handleInput_uninstall_key, handleInput_uninstalling_only_confirm,
   handleInput_runUninstall_only_affirm, handleInput_confirm_deny⟩

/-- Witness for C7: the four parts at concrete states and key events. -/
theorem c7_witness :
    (handleInput FileContent.absent c7nav false (plainKeyEvent "u") =
      { state := { c7nav with confirmUninstall := true, operationPluginId := some c7plugin.id }
        isSearchMode := false
        settingsFile := FileContent.absent
        effects := [] }) ∧
    (c7confirm.confirmUninstall = true ∧
      ((plainKeyEvent "y").input == "y" || (plainKeyEvent "y").input == "Y") = true) ∧
    (c7confirm.operation = Operation.idle ∧ c7confirm.confirmUninstall = true ∧
      c7confirm.operationPluginId = some "p@m" ∧
      ((plainKeyEvent "y").input == "y" || (plainKeyEvent "y").input == "Y") = true) ∧
    (handleInput FileContent.absent c7confirm false (plainKeyEvent "n") =
      { state := { c7confirm with confirmUninstall := false, operationPluginId := none, message := some "Uninstall cancelled" }
        isSearchMode := false
        settingsFile := FileContent.absent
        effects := [] }) :=
  ⟨c7_theorem.1 FileContent.absent c7nav c7plugin rfl (by decide) (by decide) (by decide) rfl,
   c7_theorem.2.1 FileContent.absent c7confirm false (plainKeyEvent "y") rfl (by decide),
   c7_theorem.2.2.1 FileContent.absent c7confirm false (plainKeyEvent "y") "p@m" (by decide),
   c7_theorem.2.2.2 FileContent.absent c7confirm false (plainKeyEvent "n") "p@m" rfl rfl rfl (by decide) (by decide) (by decide)⟩

end PluginDashboard
